import Mathlib

/-!
Verification development for the calsync repository: a shallow embedding of
the core sync engine (src/sync_engine.py) and the mapping store
(src/state_db.py), with theorems settling the frozen claims about them.

Modelling conventions:
* Python `datetime` objects are `PyDateTime`: a naive wall-clock value
  (an integer instant, e.g. seconds) plus an optional UTC-offset
  (`tz = none` models a naive datetime, `tz = some o` an aware one with
  offset `o`).  Comparing naive with aware raises `TypeError`, exactly as
  in Python.
* Strings holding ISO datetimes are `PyStr`: either the empty string, a
  string that `datetime.fromisoformat` accepts (carrying its parse,
  already reflecting the code's `.replace "Z" "+00:00"` preprocessing:
  a trailing Z yields `tz = some 0`), or a non-empty unparseable string on
  which `fromisoformat` raises `ValueError`.
* Event payloads are `PyEventDict`, a record of the optional fields the
  engine reads.  `none` models an absent dict key.  A `start`/`end` value
  is an `EventTime`: optional `dateTime` and `date` entries plus a flag
  recording whether the dict holds any other key (so that Python's dict
  truthiness, which is falsity of the empty dict, is captured).
* Exceptions are `Except PyError`; dict subscripting a missing key raises
  `KeyError`, `None.replace` raises `AttributeError`, failed parses raise
  `ValueError`, naive/aware comparison raises `TypeError`.
* The SQLite store is a list of rows in rowid order; `INSERT OR REPLACE`
  under the UNIQUE(source_calendar_id, source_event_id) constraint drops
  the conflicting row and appends the new one; `fetchone` of an
  un-ordered SELECT is `List.find?`.
* The Calendar gateway is a record of deterministic response functions;
  remote calls performed by a run are accumulated in a trace.
-/

namespace Calsync


/-- Python exception kinds raised by the modelled code. -/
inductive PyError
  | typeError
  | valueError
  | keyError
  | attributeError
deriving DecidableEq, Repr

/-- A Python `datetime`: naive wall-clock instant plus optional UTC offset
(`none` = naive). -/
structure PyDateTime where
  naive : Int
  tz : Option Int
deriving DecidableEq, Repr

/-- A Python string in a datetime-bearing field: empty, parseable by
`datetime.fromisoformat` (after the code's Z replacement), or non-empty
garbage on which parsing raises ValueError. -/
inductive PyStr
  | empty
  | validIso (dt : PyDateTime)
  | garbage
deriving DecidableEq, Repr

/-- Python truthiness of such a string: only the empty string is falsy. -/
def pyTruthy : PyStr → Bool
  | .empty => false
  | _ => true

/-- Model of `datetime.fromisoformat(s.replace("Z", "+00:00"))`: `none` models a
raised ValueError. -/
def parseIso : PyStr → Option PyDateTime
  | .validIso dt => some dt
  | _ => none

/-- Python `>` on datetimes: naive/aware mismatch raises TypeError, aware
pairs compare UTC instants, naive pairs compare wall-clock values. -/
def pyGt (a b : PyDateTime) : Except PyError Bool :=
  match a.tz, b.tz with
  | none, none => .ok (decide (b.naive < a.naive))
  | some oa, some ob => .ok (decide (b.naive - ob < a.naive - oa))
  | _, _ => .error .typeError

/-- Model of `dt.astimezone(timezone.utc)`: aware datetimes convert by their own
offset; a naive datetime is interpreted in the system-local timezone
(offset `localTz`) before conversion, as CPython does. -/
def astimezoneUtc (localTz : Int) (dt : PyDateTime) : PyDateTime :=
  match dt.tz with
  | some o => { naive := dt.naive - o, tz := some 0 }
  | none => { naive := dt.naive - localTz, tz := some 0 }

/-- The value of a `start`/`end` dict: optional dateTime and date entries,
plus whether any other key (such as timeZone) is present, which decides
dict truthiness. -/
structure EventTime where
  dateTime : Option PyStr
  date : Option PyStr
  hasOtherKeys : Bool
deriving DecidableEq, Repr

/-- Python falsity of a start/end dict value: the empty dict. -/
def eventTimeFalsy (t : EventTime) : Bool :=
  t.dateTime.isNone && t.date.isNone && !t.hasOtherKeys

/-- Model of `start.get("dateTime") or start.get("date")`: first operand when
truthy, otherwise the `date` entry (which may itself be None). -/
def timeFieldStr (t : EventTime) : Option PyStr :=
  match t.dateTime with
  | some s => if pyTruthy s then some s else t.date
  | none => t.date

/-- An event-shaped Python dict: the fields the engine reads, each
optional (`none` = key absent).  Used both for events returned by the
gateway and for the drafts built by `_build_event_data`. -/
structure PyEventDict where
  id : Option String
  summary : Option String
  start : Option EventTime
  endTime : Option EventTime
  description : Option String
  location : Option String
  visibility : Option String
  updated : Option PyStr
deriving DecidableEq, Repr

/-- Engine configuration: target calendar plus the sync options read in
`SyncEngine.__init__`.  `eventPfx` models the `event_prefix` option. -/
structure Config where
  targetCalendarId : String
  eventPfx : String
  syncDescription : Bool
  deleteOnSourceDelete : Bool
  dryRun : Bool
deriving DecidableEq, Repr

/-- Model of `SyncEngine._get_updated_time`: absent or falsy `updated` gives None;
a present non-empty string is parsed, raising ValueError when invalid. -/
def getUpdatedTime (e : PyEventDict) : Except PyError (Option PyDateTime) :=
  match e.updated with
  | some s =>
    if pyTruthy s then
      match parseIso s with
      | some dt => .ok (some dt)
      | none => .error .valueError
    else .ok none
  | none => .ok none

/-- Model of `SyncEngine._get_event_title`. -/
def getEventTitle (e : PyEventDict) : String :=
  e.summary.getD "Untitled Event"

/-- Model of `SyncEngine._build_event_data`: the projection of a source event to a
target draft.  `source_event["start"]`/`["end"]` raise KeyError when the
key is absent; description is copied only when the option is on and the
key is present; location and visibility are copied when present. -/
def buildEventData (cfg : Config) (e : PyEventDict) : Except PyError PyEventDict :=
  match e.start, e.endTime with
  | some st, some en =>
    .ok { id := none
          summary := some (cfg.eventPfx ++ e.summary.getD "Untitled Event")
          start := some st
          endTime := some en
          description := if cfg.syncDescription && e.description.isSome then e.description else none
          location := e.location
          visibility := e.visibility
          updated := none }
  | _, _ => .error .keyError

/-- A matching key: summary plus start and end as UTC instants (both key
builders normalise with `astimezone(timezone.utc)`, so the aware result
is determined by its instant). -/
abbrev EventKey := String × Int × Int

/-- Model of `SyncEngine._build_event_key`: None when summary, start or end is
falsy; otherwise the chosen start/end strings are parsed in source order,
raising AttributeError when a chosen string is Python None and ValueError
when it does not parse. -/
def buildEventKey (localTz : Int) (e : PyEventDict) : Except PyError (Option EventKey) :=
  match e.summary, e.start, e.endTime with
  | some sm, some st, some en =>
    if sm = "" || eventTimeFalsy st || eventTimeFalsy en then .ok none
    else
      match timeFieldStr st, timeFieldStr en with
      | some ss, some es =>
        match parseIso ss with
        | some sdt =>
          match parseIso es with
          | some edt =>
            .ok (some (sm, (astimezoneUtc localTz sdt).naive, (astimezoneUtc localTz edt).naive))
          | none => .error .valueError
        | none => .error .valueError
      | some ss, none =>
        match parseIso ss with
        | some _ => .error .attributeError
        | none => .error .valueError
      | none, _ => .error .attributeError
  | _, _, _ => .ok none

/-- Model of `SyncEngine._build_event_key_from_data`: the key builder applied to
drafts, transcribed from its own source function (which duplicates
`_build_event_key` line for line). -/
def buildEventKeyFromData (localTz : Int) (eventData : PyEventDict) : Except PyError (Option EventKey) :=
  match eventData.summary, eventData.start, eventData.endTime with
  | some sm, some st, some en =>
    if sm = "" || eventTimeFalsy st || eventTimeFalsy en then .ok none
    else
      match timeFieldStr st, timeFieldStr en with
      | some ss, some es =>
        match parseIso ss with
        | some sdt =>
          match parseIso es with
          | some edt =>
            .ok (some (sm, (astimezoneUtc localTz sdt).naive, (astimezoneUtc localTz edt).naive))
          | none => .error .valueError
        | none => .error .valueError
      | some ss, none =>
        match parseIso ss with
        | some _ => .error .attributeError
        | none => .error .valueError
      | none, _ => .error .attributeError
  | _, _, _ => .ok none

/-- Model of `SyncEngine._format_event_datetime`: total on absent or falsy start
strings, raising ValueError on a non-empty unparseable one.  The rendered
text is abbreviated to the data it displays; only which inputs raise is
relevant to the claims. -/
def formatEventDatetime (e : PyEventDict) : Except PyError String :=
  match e.start with
  | none => .ok "Unknown date"
  | some st =>
    match timeFieldStr st with
    | none => .ok "Unknown date"
    | some s =>
      if pyTruthy s then
        match parseIso s with
        | none => .error .valueError
        | some dt =>
          match st.dateTime with
          | some ds =>
            if pyTruthy ds then .ok (toString dt.naive ++ " tz " ++ toString (dt.tz.getD 0))
            else .ok (toString dt.naive)
          | none => .ok (toString dt.naive)
      else .ok "Unknown date"

/-- One row of the `synced_events` table (src/state_db.py), fields in
column order.  `lastSynced` holds the parse of the stored TEXT timestamp
(the schema declares it NOT NULL); `sourceUpdated` is nullable. -/
structure SyncRow where
  srcCal : String
  srcEvt : String
  tgtCal : String
  tgtEvt : String
  sourceUpdated : Option PyDateTime
  lastSynced : PyDateTime
deriving DecidableEq, Repr

/-- The store relation, rows in rowid order. -/
abbrev Store := List SyncRow

/-- The WHERE clause on the unique (source_calendar_id, source_event_id)
key. -/
def rowKeyIs (cal evt : String) (r : SyncRow) : Bool :=
  r.srcCal == cal && r.srcEvt == evt

/-- The naive-timestamp fixup in `StateDB.get_synced_event`: a stored
value that parses naive is reinterpreted as UTC. -/
def fixNaiveUtc (dt : PyDateTime) : PyDateTime :=
  match dt.tz with
  | none => { dt with tz := some 0 }
  | some _ => dt

/-- Model of `StateDB.get_synced_event`: fetchone of the key lookup, returning
(target_calendar_id, target_event_id, last_synced) with the naive fixup. -/
def getSyncedEvent (s : Store) (cal evt : String) : Option (String × String × PyDateTime) :=
  match s.find? (rowKeyIs cal evt) with
  | some r => some (r.tgtCal, r.tgtEvt, fixNaiveUtc r.lastSynced)
  | none => none

/-- The row `record_sync` inserts: `last_synced =
datetime.now(timezone.utc)`, an aware UTC instant. -/
def mkRow (cal evt tcal tevt : String) (srcUpd : Option PyDateTime) (now : Int) : SyncRow :=
  { srcCal := cal, srcEvt := evt, tgtCal := tcal, tgtEvt := tevt,
    sourceUpdated := srcUpd, lastSynced := { naive := now, tz := some 0 } }

/-- Model of `StateDB.record_sync`: INSERT OR REPLACE keyed by the unique
constraint — conflicting rows are dropped and the new row appended. -/
def recordSync (s : Store) (cal evt tcal tevt : String) (srcUpd : Option PyDateTime)
    (now : Int) : Store :=
  s.filter (fun r => !(rowKeyIs cal evt r)) ++ [mkRow cal evt tcal tevt srcUpd now]

/-- Model of `StateDB.delete_sync_record`: look up the target id, then delete the
key's rows; `(none, s)` models the no-row early return. -/
def deleteSyncRecord (s : Store) (cal evt : String) : Option String × Store :=
  match s.find? (rowKeyIs cal evt) with
  | some r => (some r.tgtEvt, s.filter (fun x => !(rowKeyIs cal evt x)))
  | none => (none, s)

/-- Model of `StateDB.get_all_synced_events`: all (source_event_id,
target_event_id) pairs of a source calendar. -/
def getAllSyncedEvents (s : Store) (cal : String) : List (String × String) :=
  (s.filter (fun r => r.srcCal == cal)).map (fun r => (r.srcEvt, r.tgtEvt))

/-- Model of `StateDB.get_by_target_event`: fetchone of the target-id lookup. -/
def getByTargetEvent (s : Store) (tevt : String) : Option (String × String) :=
  match s.find? (fun r => r.tgtEvt == tevt) with
  | some r => some (r.srcCal, r.srcEvt)
  | none => none

/-- A remote Calendar-API call performed by a run, with the response the
gateway gave. -/
inductive Call
  | createE (cal : String) (data : PyEventDict) (result : Option PyEventDict)
  | updateE (cal evtId : String) (data : PyEventDict) (result : Option PyEventDict)
  | deleteE (cal evtId : String) (result : Bool)
  | getE (cal evtId : String) (result : Option PyEventDict)
deriving DecidableEq, Repr

/-- Whether a call mutates the remote calendar (list/get calls do not). -/
def Call.isWrite : Call → Bool
  | .createE .. => true
  | .updateE .. => true
  | .deleteE .. => true
  | .getE .. => false

/-- The Calendar gateway (src/calendar_api.py seen from the engine):
deterministic response functions.  `getEvents cal` is the listing the
window query returns for calendar `cal`; per-operation failures are
`none`/`false` results, matching the wrapper's catch-and-return-None
behaviour. -/
structure Gateway where
  getEvents : String → List PyEventDict
  createEvent : String → PyEventDict → Option PyEventDict
  updateEvent : String → String → PyEventDict → Option PyEventDict
  deleteEvent : String → String → Bool
  getEvent : String → String → Option PyEventDict

/-- The per-run counters of `sync_calendar`. -/
structure SyncStats where
  created : Nat
  updated : Nat
  skipped : Nat
  deleted : Nat
deriving DecidableEq, Repr

/-- Mutable state threaded through a sync run: the store, the counters
and the trace of remote calls made so far. -/
structure SyncState where
  store : Store
  stats : SyncStats
  trace : List Call
deriving DecidableEq, Repr

/-- The per-event body of the `for source_event in source_events` loop of
`SyncEngine.sync_calendar` (lines 59-121).  Returns the state after the
iteration and `some err` when the iteration raises, with the state at the
raise. -/
def syncEventStep (cfg : Config) (gw : Gateway) (now : Int) (srcCal : String)
    (s : SyncState) (e : PyEventDict) : SyncState × Option PyError :=
  match e.id with
  | none => (s, some .keyError)
  | some eid =>
    match getSyncedEvent s.store srcCal eid with
    | some (_, targetEventId, lastSynced) =>
      match getUpdatedTime e with
      | .error er => (s, some er)
      | .ok none =>
        ({ s with stats := { s.stats with skipped := s.stats.skipped + 1 } }, none)
      | .ok (some srcUpd) =>
        match pyGt srcUpd lastSynced with
        | .error er => (s, some er)
        | .ok false =>
          ({ s with stats := { s.stats with skipped := s.stats.skipped + 1 } }, none)
        | .ok true =>
          if cfg.dryRun then
            let s1 := { s with stats := { s.stats with updated := s.stats.updated + 1 } }
            match formatEventDatetime e with
            | .error er => (s1, some er)
            | .ok _ => (s1, none)
          else
            match buildEventData cfg e with
            | .error er => (s, some er)
            | .ok data =>
              let res := gw.updateEvent cfg.targetCalendarId targetEventId data
              let s1 := { s with
                trace := s.trace ++ [Call.updateE cfg.targetCalendarId targetEventId data res] }
              match res with
              | some _ =>
                let s2 := { s1 with
                  store := recordSync s1.store srcCal eid cfg.targetCalendarId targetEventId
                    (some srcUpd) now
                  stats := { s1.stats with updated := s1.stats.updated + 1 } }
                match formatEventDatetime e with
                | .error er => (s2, some er)
                | .ok _ => (s2, none)
              | none =>
                ({ s1 with stats := { s1.stats with skipped := s1.stats.skipped + 1 } }, none)
    | none =>
      if cfg.dryRun then
        let s1 := { s with stats := { s.stats with created := s.stats.created + 1 } }
        match formatEventDatetime e with
        | .error er => (s1, some er)
        | .ok _ => (s1, none)
      else
        match buildEventData cfg e with
        | .error er => (s, some er)
        | .ok data =>
          let res := gw.createEvent cfg.targetCalendarId data
          let s1 := { s with
            trace := s.trace ++ [Call.createE cfg.targetCalendarId data res] }
          match res with
          | some tev =>
            match tev.id with
            | none => (s1, some .keyError)
            | some targetEventId =>
              match getUpdatedTime e with
              | .error er => (s1, some er)
              | .ok srcUpd =>
                let s2 := { s1 with
                  store := recordSync s1.store srcCal eid cfg.targetCalendarId targetEventId
                    srcUpd now
                  stats := { s1.stats with created := s1.stats.created + 1 } }
                match formatEventDatetime e with
                | .error er => (s2, some er)
                | .ok _ => (s2, none)
          | none =>
            ({ s1 with stats := { s1.stats with skipped := s1.stats.skipped + 1 } }, none)

/-- The source-event loop: runs `syncEventStep` left to right, stopping
at the first raised exception. -/
def processSourceEvents (cfg : Config) (gw : Gateway) (now : Int) (srcCal : String) :
    List PyEventDict → SyncState → SyncState × Option PyError
  | [], s => (s, none)
  | e :: rest, s =>
    match syncEventStep cfg gw now srcCal s e with
    | (s1, none) => processSourceEvents cfg gw now srcCal rest s1
    | (s1, some er) => (s1, some er)

/-- The tail of one deleted-event iteration (sync_calendar lines
159-169): delete the store row first, then attempt the remote delete,
counting only on remote success. -/
def deleteFinish (cfg : Config) (gw : Gateway) (srcCal deletedId : String)
    (s : SyncState) : SyncState × Option PyError :=
  match deleteSyncRecord s.store srcCal deletedId with
  | (some tid, store1) =>
    let res := gw.deleteEvent cfg.targetCalendarId tid
    let s1 := { s with store := store1
                       trace := s.trace ++ [Call.deleteE cfg.targetCalendarId tid res] }
    if res then ({ s1 with stats := { s1.stats with deleted := s1.stats.deleted + 1 } }, none)
    else (s1, none)
  | (none, store1) => ({ s with store := store1 }, none)

/-- One iteration of the deleted-events loop (sync_calendar lines
126-169): dry-run peeks and counts; a real run fetches display info, then
removes the row and propagates the remote delete. -/
def deleteStep (cfg : Config) (gw : Gateway) (srcCal : String)
    (s : SyncState) (deletedId : String) : SyncState × Option PyError :=
  if cfg.dryRun then
    match getSyncedEvent s.store srcCal deletedId with
    | some (_, targetEventId, _) =>
      let s1 := { s with stats := { s.stats with deleted := s.stats.deleted + 1 } }
      let res := gw.getEvent cfg.targetCalendarId targetEventId
      let s2 := { s1 with trace := s1.trace ++ [Call.getE cfg.targetCalendarId targetEventId res] }
      match res with
      | some tev =>
        match formatEventDatetime tev with
        | .error er => (s2, some er)
        | .ok _ => (s2, none)
      | none => (s2, none)
    | none => (s, none)
  else
    match getSyncedEvent s.store srcCal deletedId with
    | some (_, targetEventId, _) =>
      let res := gw.getEvent cfg.targetCalendarId targetEventId
      let s1 := { s with trace := s.trace ++ [Call.getE cfg.targetCalendarId targetEventId res] }
      match res with
      | some tev =>
        match formatEventDatetime tev with
        | .error er => (s1, some er)
        | .ok _ => deleteFinish cfg gw srcCal deletedId s1
      | none => deleteFinish cfg gw srcCal deletedId s1
    | none => deleteFinish cfg gw srcCal deletedId s

/-- The deleted-events loop. -/
def processDeleted (cfg : Config) (gw : Gateway) (srcCal : String) :
    List String → SyncState → SyncState × Option PyError
  | [], s => (s, none)
  | did :: rest, s =>
    match deleteStep cfg gw srcCal s did with
    | (s1, none) => processDeleted cfg gw srcCal rest s1
    | (s1, some er) => (s1, some er)

/-- Iteration of a Python set built from a list: each id once (order is a
modelling choice; the set's iteration order is arbitrary). -/
def dedupKeepFirst : List String → List String
  | [] => []
  | x :: xs => x :: (dedupKeepFirst xs).filter (fun y => !(y == x))

/-- Model of `SyncEngine.sync_calendar` on the listing the gateway returns for the
run's time window: the source-event loop followed, when delete
propagation is on, by the deleted-events loop over tracked ids absent
from the listing.  `now` is the run's clock (the instant recorded as
last_synced). -/
def syncCalendar (cfg : Config) (gw : Gateway) (now : Int) (srcCal : String)
    (store : Store) : SyncState × Option PyError :=
  let events := gw.getEvents srcCal
  let syncedIds := dedupKeepFirst ((getAllSyncedEvents store srcCal).map Prod.fst)
  let s0 : SyncState := { store := store, stats := ⟨0, 0, 0, 0⟩, trace := [] }
  match processSourceEvents cfg gw now srcCal events s0 with
  | (s1, some er) => (s1, some er)
  | (s1, none) =>
    if cfg.deleteOnSourceDelete then
      let currentIds := events.filterMap (fun e => e.id)
      let deletedIds := syncedIds.filter (fun i => !(currentIds.contains i))
      processDeleted cfg gw srcCal deletedIds s1
    else (s1, none)

/-- The per-run counters of `reconcile_calendar`. -/
structure RecStats where
  reconciled : Nat
  alreadyTracked : Nat
  notFound : Nat
  targetAlreadyMapped : Nat
deriving DecidableEq, Repr

/-- State threaded through a reconcile run. -/
structure RecState where
  store : Store
  stats : RecStats
  trace : List Call
deriving DecidableEq, Repr

/-- Python dict assignment for the target lookup: replace any existing
binding of the key (last one wins) — only lookups observe the table, so
bindings are kept with the live one last. -/
def dictInsert (l : List (EventKey × PyEventDict)) (k : EventKey) (v : PyEventDict) :
    List (EventKey × PyEventDict) :=
  (l.filter (fun p => !(p.1 == k))) ++ [(k, v)]

/-- Dict membership plus subscript: the binding of `k`, if any. -/
def dictFind (l : List (EventKey × PyEventDict)) (k : EventKey) : Option PyEventDict :=
  (l.find? (fun p => p.1 == k)).map Prod.snd

/-- The target-lookup construction of `reconcile_calendar` (lines
199-203): keys are derived for each target event in order, last binding
winning; a raise while deriving aborts the run. -/
def buildTargetLookup (localTz : Int) :
    List PyEventDict → List (EventKey × PyEventDict) →
    Except PyError (List (EventKey × PyEventDict))
  | [], acc => .ok acc
  | t :: rest, acc =>
    match buildEventKey localTz t with
    | .error er => .error er
    | .ok (some k) => buildTargetLookup localTz rest (dictInsert acc k t)
    | .ok none => buildTargetLookup localTz rest acc

/-- The per-event body of the reconcile loop (lines 209-252); it makes
no remote calls. -/
def reconcileStep (cfg : Config) (localTz now : Int) (srcCal : String)
    (lookup : List (EventKey × PyEventDict)) (s : RecState) (e : PyEventDict) :
    RecState × Option PyError :=
  match e.id with
  | none => (s, some .keyError)
  | some eid =>
    match getSyncedEvent s.store srcCal eid with
    | some _ =>
      ({ s with stats := { s.stats with alreadyTracked := s.stats.alreadyTracked + 1 } }, none)
    | none =>
      match buildEventData cfg e with
      | .error er => (s, some er)
      | .ok data =>
        match buildEventKeyFromData localTz data with
        | .error er => (s, some er)
        | .ok (some k) =>
          match dictFind lookup k with
          | some tev =>
            match tev.id with
            | none => (s, some .keyError)
            | some targetEventId =>
              match getByTargetEvent s.store targetEventId with
              | some _ =>
                ({ s with stats :=
                  { s.stats with targetAlreadyMapped := s.stats.targetAlreadyMapped + 1 } }, none)
              | none =>
                match getUpdatedTime e with
                | .error er => (s, some er)
                | .ok srcUpd =>
                  if cfg.dryRun then
                    let s1 := { s with stats :=
                      { s.stats with reconciled := s.stats.reconciled + 1 } }
                    match formatEventDatetime e with
                    | .error er => (s1, some er)
                    | .ok _ => (s1, none)
                  else
                    let s1 := { s with
                      store := recordSync s.store srcCal eid cfg.targetCalendarId targetEventId
                        srcUpd now
                      stats := { s.stats with reconciled := s.stats.reconciled + 1 } }
                    match formatEventDatetime e with
                    | .error er => (s1, some er)
                    | .ok _ => (s1, none)
          | none =>
            ({ s with stats := { s.stats with notFound := s.stats.notFound + 1 } }, none)
        | .ok none =>
          ({ s with stats := { s.stats with notFound := s.stats.notFound + 1 } }, none)

/-- The reconcile source-event loop. -/
def processReconcile (cfg : Config) (localTz now : Int) (srcCal : String)
    (lookup : List (EventKey × PyEventDict)) :
    List PyEventDict → RecState → RecState × Option PyError
  | [], s => (s, none)
  | e :: rest, s =>
    match reconcileStep cfg localTz now srcCal lookup s e with
    | (s1, none) => processReconcile cfg localTz now srcCal lookup rest s1
    | (s1, some er) => (s1, some er)

/-- Model of `SyncEngine.reconcile_calendar`. -/
def reconcileCalendar (cfg : Config) (gw : Gateway) (localTz now : Int) (srcCal : String)
    (store : Store) : RecState × Option PyError :=
  let sourceEvents := gw.getEvents srcCal
  let targetEvents := gw.getEvents cfg.targetCalendarId
  let s0 : RecState := { store := store, stats := ⟨0, 0, 0, 0⟩, trace := [] }
  match buildTargetLookup localTz targetEvents [] with
  | .error er => (s0, some er)
  | .ok lookup => processReconcile cfg localTz now srcCal lookup sourceEvents s0

/-! ### Concrete fixtures used by witnesses and counterexamples -/

/-- A dict with every key absent. -/
def emptyDict : PyEventDict :=
  { id := none, summary := none, start := none, endTime := none,
    description := none, location := none, visibility := none, updated := none }

/-- A well-formed timed start value. -/
def sampleStart : EventTime :=
  { dateTime := some (.validIso { naive := 100, tz := some 0 }), date := none,
    hasOtherKeys := false }

/-- A well-formed timed end value. -/
def sampleEnd : EventTime :=
  { dateTime := some (.validIso { naive := 200, tz := some 0 }), date := none,
    hasOtherKeys := false }

/-- A draft-shaped dict used by the C6 witness. -/
def c6Draft : PyEventDict :=
  { emptyDict with
    summary := some "a"
    start := some sampleStart
    endTime := some sampleEnd }

/-- A target event carrying the same summary, start and end as `c6Draft`
but with an id. -/
def c6Target : PyEventDict :=
  { emptyDict with
    id := some "t9"
    summary := some "a"
    start := some sampleStart
    endTime := some sampleEnd }

/-- The configuration used by the C7 witness. -/
def c7Cfg : Config :=
  { targetCalendarId := "tgt", eventPfx := "P: ", syncDescription := true,
    deleteOnSourceDelete := false, dryRun := false }

/-- The source event used by the C7 witness. -/
def c7Event : PyEventDict :=
  { emptyDict with
    summary := some "Standup"
    start := some sampleStart
    endTime := some sampleEnd
    description := some "notes"
    location := some "room" }

/-! ### C8: key derivation totality -/

/-- An event whose start dict is non-empty (truthy) yet holds neither a
dateTime nor a date entry, e.g. a bare timeZone key. -/
def c8BadStart : PyEventDict :=
  { emptyDict with
    summary := some "x"
    start := some { dateTime := none, date := none, hasOtherKeys := true }
    endTime := some sampleEnd }

/-- The code's falsiness test on summary/start/end
(`if not summary or not start or not end`). -/
def keyFieldsFalsy (e : PyEventDict) : Prop :=
  e.summary = none ∨ e.summary = some "" ∨
  e.start = none ∨ (∃ st, e.start = some st ∧ eventTimeFalsy st = true) ∨
  e.endTime = none ∨ (∃ en, e.endTime = some en ∧ eventTimeFalsy en = true)

/-- An event with all key fields present but an empty summary. -/
def c8EmptySummary : PyEventDict :=
  { emptyDict with
    summary := some ""
    start := some sampleStart
    endTime := some sampleEnd }

/-- A well-formed event for the C8 witness. -/
def c8Good : PyEventDict :=
  { emptyDict with
    summary := some "x"
    start := some sampleStart
    endTime := some sampleEnd }

/-! ### C9: mapping uniqueness in the store -/

/-- The mutating store operations of the claim. -/
inductive StoreOp
  | recOp (cal evt tcal tevt : String) (srcUpd : Option PyDateTime) (now : Int)
  | delOp (cal evt : String)

/-- Apply one mutating operation. -/
def applyOp (s : Store) : StoreOp → Store
  | .recOp cal evt tcal tevt u now => recordSync s cal evt tcal tevt u now
  | .delOp cal evt => (deleteSyncRecord s cal evt).2

/-- Apply a sequence of mutating operations left to right. -/
def applyOps (s : Store) : List StoreOp → Store
  | [] => s
  | op :: rest => applyOps (applyOp s op) rest

/-- At most one row per (source_calendar_id, source_event_id) key. -/
def uniqueKeys (s : Store) : Prop :=
  ∀ cal evt, (s.filter (rowKeyIs cal evt)).length ≤ 1

/-- A one-row store used by the C9 and C10 witnesses. -/
def c9Row : SyncRow :=
  { srcCal := "c", srcEvt := "e", tgtCal := "tc", tgtEvt := "te",
    sourceUpdated := none, lastSynced := { naive := 1, tz := some 0 } }

/-! ### C2: the update policy of sync_calendar -/

/-- A gateway on which every remote operation fails and every listing is
empty. -/
def failGateway : Gateway :=
  { getEvents := fun _ => [], createEvent := fun _ _ => none,
    updateEvent := fun _ _ _ => none, deleteEvent := fun _ _ => false,
    getEvent := fun _ _ => none }

/-- A plain non-dry configuration with no prefix. -/
def plainCfg : Config :=
  { targetCalendarId := "tgt", eventPfx := "", syncDescription := true,
    deleteOnSourceDelete := false, dryRun := false }

/-- A store tracking source event e1 with last_synced instant 50. -/
def c2Store : Store := [mkRow "src" "e1" "tgt" "t1" none 50]

/-- The state at the start of the C2 counterexample iteration. -/
def c2State : SyncState := { store := c2Store, stats := ⟨0, 0, 0, 0⟩, trace := [] }

/-- A tracked source event whose `updated` field is a present but
unparseable string. -/
def c2Event : PyEventDict :=
  { emptyDict with
    id := some "e1"
    summary := some "x"
    start := some sampleStart
    endTime := some sampleEnd
    updated := some .garbage }

/-- A tracked source event with no `updated` field, for the C2 witness. -/
def c2SkipEvent : PyEventDict :=
  { emptyDict with
    id := some "e1"
    summary := some "x"
    start := some sampleStart
    endTime := some sampleEnd }

/-- The untracked source event of the C3 witness. -/
def c3Event : PyEventDict :=
  { emptyDict with
    id := some "e2"
    summary := some "x"
    start := some sampleStart
    endTime := some sampleEnd }

/-- The pre-existing target event of the C3 witness, matching `c3Event`
by key but already claimed by source event e1 in `c2Store`. -/
def c3Target : PyEventDict :=
  { emptyDict with
    id := some "t1"
    summary := some "x"
    start := some sampleStart
    endTime := some sampleEnd }

/-- The draft projected from `c3Event` under `plainCfg`. -/
def c3Data : PyEventDict :=
  { emptyDict with
    summary := some "x"
    start := some sampleStart
    endTime := some sampleEnd }

/-- The reconcile state of the C3 witness. -/
def c3State : RecState := { store := c2Store, stats := ⟨0, 0, 0, 0⟩, trace := [] }

/-! ### C4: deletion propagation removes the mapping before the remote delete -/

/-- A configuration with delete propagation on. -/
def c4Cfg : Config :=
  { targetCalendarId := "tgt", eventPfx := "", syncDescription := true,
    deleteOnSourceDelete := true, dryRun := false }

/-- A store tracking source event e1, which the (empty) listing no longer
contains. -/
def c4Store : Store := [mkRow "src" "e1" "tgt" "t1" none 10]

/-- The state of the C4 amended witness. -/
def c4State : SyncState := { store := c4Store, stats := ⟨0, 0, 0, 0⟩, trace := [] }

/-- The dry-run configuration of the C5 scenario. -/
def c5Cfg : Config :=
  { targetCalendarId := "tgt", eventPfx := "", syncDescription := true,
    deleteOnSourceDelete := false, dryRun := true }

/-- The single new source event of the C5 scenario. -/
def c5Event : PyEventDict :=
  { emptyDict with
    id := some "e1"
    summary := some "Standup"
    start := some sampleStart
    endTime := some sampleEnd }

/-- A gateway listing exactly the C5 scenario event. -/
def c5Gw : Gateway :=
  { failGateway with getEvents := fun _ => [c5Event] }

/-- A source event whose update timestamp is a parseable aware instant
(1000) later than the first run's clock, used by the C1 counterexample. -/
def c1UpdEvent : PyEventDict :=
  { emptyDict with
    id := some "e1"
    summary := some "x"
    start := some sampleStart
    endTime := some sampleEnd
    updated := some (.validIso { naive := 1000, tz := some 0 }) }

/-- The target event the C1 counterexample gateway returns from creates
and updates. -/
def c1CreatedEvent : PyEventDict :=
  { emptyDict with id := some "t1" }

/-- A deterministic gateway listing exactly `c1UpdEvent`, on which
creates and updates succeed; the same gateway serves both runs, so the
source events do not change between them. -/
def c1Gw : Gateway :=
  { getEvents := fun _ => [c1UpdEvent]
    createEvent := fun _ _ => some c1CreatedEvent
    updateEvent := fun _ _ _ => some c1CreatedEvent
    deleteEvent := fun _ _ => false
    getEvent := fun _ _ => none }

/-- A store used to exercise the dry-run frame with delete propagation
on: the tracked id is absent from the listing, so the dry run peeks but
must not touch the store. -/
def c5DelStore : Store := [mkRow "src" "gone" "tgt" "t9" none 1]

/-- The dry-run configuration with delete propagation on. -/
def c5DelCfg : Config :=
  { targetCalendarId := "tgt", eventPfx := "", syncDescription := true,
    deleteOnSourceDelete := true, dryRun := true }

/-- The update-timestamp sanity hypothesis of the idempotence claim: the
event's update field parses without raising, and when present it is an
aware instant not in the future of the first run's clock `t1` (Google's
updated timestamps are aware and in the past). -/
def updatedWithin (t1 : Int) (e : PyEventDict) : Prop :=
  ∃ u, getUpdatedTime e = .ok u ∧
    ∀ dt, u = some dt → ∃ o, dt.tz = some o ∧ dt.naive - o ≤ t1

/-- The store-dependent condition under which the per-event step of
`sync_calendar` skips the event: tracked with a missing timestamp, or
tracked and not strictly newer, or tracked-newer but the deterministic
remote update fails, or untracked and the deterministic remote create
fails. -/
def SkipCond (cfg : Config) (gw : Gateway) (srcCal : String) (store : Store)
    (e : PyEventDict) : Prop :=
  ∃ eid, e.id = some eid ∧
    ((∃ tc tid ls, getSyncedEvent store srcCal eid = some (tc, tid, ls) ∧
       (getUpdatedTime e = .ok none ∨
        (∃ dt, getUpdatedTime e = .ok (some dt) ∧ pyGt dt ls = .ok false) ∨
        (∃ dt data, getUpdatedTime e = .ok (some dt) ∧ pyGt dt ls = .ok true ∧
          buildEventData cfg e = .ok data ∧
          gw.updateEvent cfg.targetCalendarId tid data = none))) ∨
     (getSyncedEvent store srcCal eid = none ∧
       ∃ data, buildEventData cfg e = .ok data ∧
       gw.createEvent cfg.targetCalendarId data = none))

/-- A store holding a naive stored timestamp, for the C10 witness. -/
def c10Store : Store :=
  [{ srcCal := "c", srcEvt := "e", tgtCal := "tc", tgtEvt := "te",
     sourceUpdated := none, lastSynced := { naive := 5, tz := none } }]

/-! ### Theorems settling the claims -/

/-! ### C6: the two key-derivation paths are behaviorally identical -/

/-- C6: `_build_event_key` and `_build_event_key_from_data` agree on every
event-shaped dict; consequently the key derived from a projected draft
equals the key derived from a genuine target event carrying the same
summary, start and end. -/
theorem key_paths_identical :
    (∀ (localTz : Int) (d : PyEventDict),
      buildEventKey localTz d = buildEventKeyFromData localTz d) ∧
    (∀ (localTz : Int) (d₁ d₂ : PyEventDict), d₁.summary = d₂.summary →
      d₁.start = d₂.start → d₁.endTime = d₂.endTime →
      buildEventKeyFromData localTz d₁ = buildEventKey localTz d₂) := by
  constructor
  · intro tz d
    rfl
  · intro tz d₁ d₂ hs hst hen
    unfold buildEventKeyFromData buildEventKey
    rw [hs, hst, hen]

/-- Witness for C6: a draft and a target event sharing summary, start and
end (but not id) get the same key. -/
theorem key_paths_identical_witness :
    c6Draft.summary = c6Target.summary ∧
    buildEventKeyFromData 2 c6Draft = buildEventKey 2 c6Target :=
  ⟨rfl, key_paths_identical.2 2 c6Draft c6Target rfl rfl rfl⟩

/-! ### C7: the projected target draft -/

/-- C7: the draft built by `_build_event_data` has summary equal to the
configured prefix concatenated with the source summary (with "Untitled
Event" substituted when the source summary is absent), start and end
copied verbatim, description included exactly when the option is on and
the source has one, location and visibility included exactly when
present, and no other fields. -/
theorem buildEventData_projection (cfg : Config) (e : PyEventDict) (st en : EventTime)
    (hs : e.start = some st) (he : e.endTime = some en) :
    ∃ data, buildEventData cfg e = .ok data ∧
      (e.summary = none → data.summary = some (cfg.eventPfx ++ "Untitled Event")) ∧
      (∀ t, e.summary = some t → data.summary = some (cfg.eventPfx ++ t)) ∧
      data.start = e.start ∧ data.endTime = e.endTime ∧
      (cfg.syncDescription = true → e.description.isSome = true →
        data.description = e.description) ∧
      (cfg.syncDescription = false ∨ e.description = none → data.description = none) ∧
      data.location = e.location ∧ data.visibility = e.visibility ∧
      data.id = none ∧ data.updated = none := by
  have hdata : buildEventData cfg e = .ok
      { id := none
        summary := some (cfg.eventPfx ++ e.summary.getD "Untitled Event")
        start := some st
        endTime := some en
        description := if cfg.syncDescription && e.description.isSome then e.description else none
        location := e.location
        visibility := e.visibility
        updated := none } := by
    unfold buildEventData
    rw [hs, he]
  refine ⟨_, hdata, ?_, ?_, ?_, ?_, ?_, ?_, rfl, rfl, rfl, rfl⟩
  · intro h
    simp [h]
  · intro t h
    simp [h]
  · simp [hs]
  · simp [he]
  · intro h1 h2
    simp [h1, h2]
  · intro h
    rcases h with h | h <;> simp [h]

/-- Witness for C7 at a concrete configuration and source event. -/
theorem buildEventData_projection_witness :
    c7Event.start = some sampleStart ∧
    ∃ data, buildEventData c7Cfg c7Event = .ok data ∧
      data.summary = some ("P: " ++ "Standup") ∧ data.description = some "notes" ∧
      data.location = some "room" ∧ data.visibility = none ∧ data.id = none := by
  refine ⟨rfl, ?_⟩
  obtain ⟨data, h1, _, h3, _, _, h6, _, h8, h9, h10, _⟩ :=
    buildEventData_projection c7Cfg c7Event sampleStart sampleEnd rfl rfl
  refine ⟨data, h1, h3 "Standup" rfl, ?_, ?_, ?_, h10⟩
  · rw [h6 rfl rfl]
    decide
  · rw [h8]
    decide
  · rw [h9]
    decide

/-- C8 counterexample: `_build_event_key` is not total on present
fields — with a truthy start dict holding neither dateTime nor date it
raises AttributeError (None.replace), contradicting the claim that it
never raises in that case. -/
theorem buildEventKey_raises : buildEventKey 0 c8BadStart = .error .attributeError := rfl

/-- C8 amended: `_build_event_key` returns absent when summary, start or
end is missing or falsy; when all three are truthy it returns a key when
the chosen start/end strings parse, but it raises AttributeError when a
chosen string is Python None (neither dateTime nor date present) and
ValueError when a chosen string is unparseable. -/
theorem buildEventKey_amended :
    (∀ (tz : Int) (e : PyEventDict), keyFieldsFalsy e → buildEventKey tz e = .ok none) ∧
    (∀ (tz : Int) (e : PyEventDict) (sm : String) (st en : EventTime),
      e.summary = some sm → e.start = some st → e.endTime = some en →
      sm ≠ "" → eventTimeFalsy st = false → eventTimeFalsy en = false →
      (timeFieldStr st = none → buildEventKey tz e = .error .attributeError) ∧
      (∀ ss, timeFieldStr st = some ss → parseIso ss = none →
        buildEventKey tz e = .error .valueError) ∧
      (∀ ss sdt, timeFieldStr st = some ss → parseIso ss = some sdt →
        (timeFieldStr en = none → buildEventKey tz e = .error .attributeError) ∧
        (∀ es, timeFieldStr en = some es → parseIso es = none →
          buildEventKey tz e = .error .valueError) ∧
        (∀ es edt, timeFieldStr en = some es → parseIso es = some edt →
          buildEventKey tz e =
            .ok (some (sm, (astimezoneUtc tz sdt).naive, (astimezoneUtc tz edt).naive))))) := by
  constructor
  · intro tz e h
    rcases hsm : e.summary with _ | sm
    · simp [buildEventKey, hsm]
    · rcases hst : e.start with _ | st
      · simp [buildEventKey, hsm, hst]
      · rcases hen : e.endTime with _ | en
        · simp [buildEventKey, hsm, hst, hen]
        · have hcond : (sm = "" ∨ eventTimeFalsy st = true ∨ eventTimeFalsy en = true) := by
            rcases h with h | h | h | ⟨st', h1, h2⟩ | h | ⟨en', h1, h2⟩
            · rw [hsm] at h
              exact absurd h (by simp)
            · rw [hsm] at h
              injection h with h
              exact Or.inl h
            · rw [hst] at h
              exact absurd h (by simp)
            · rw [hst] at h1
              injection h1 with h1
              subst h1
              exact Or.inr (Or.inl h2)
            · rw [hen] at h
              exact absurd h (by simp)
            · rw [hen] at h1
              injection h1 with h1
              subst h1
              exact Or.inr (Or.inr h2)
          rcases hcond with h1 | h1 | h1 <;> simp [buildEventKey, hsm, hst, hen, h1]
  · intro tz e sm st en hsm hst hen hsm' hstf henf
    refine ⟨?_, ?_, ?_⟩
    · intro h
      simp [buildEventKey, hsm, hst, hen, hsm', hstf, henf, h]
    · intro ss h1 h2
      cases h3 : timeFieldStr en <;>
        simp [buildEventKey, hsm, hst, hen, hsm', hstf, henf, h1, h2, h3]
    · intro ss sdt h1 h2
      refine ⟨?_, ?_, ?_⟩
      · intro h3
        simp [buildEventKey, hsm, hst, hen, hsm', hstf, henf, h1, h2, h3]
      · intro es h3 h4
        simp [buildEventKey, hsm, hst, hen, hsm', hstf, henf, h1, h2, h3, h4]
      · intro es edt h3 h4
        simp [buildEventKey, hsm, hst, hen, hsm', hstf, henf, h1, h2, h3, h4]

/-- Witness for C8 amended: absent on a falsy field, a key on a
well-formed event. -/
theorem buildEventKey_amended_witness :
    buildEventKey 0 c8EmptySummary = .ok none ∧
    buildEventKey 0 c8Good = .ok (some ("x", 100, 200)) := by
  constructor
  · exact buildEventKey_amended.1 0 c8EmptySummary (Or.inr (Or.inl rfl))
  · have h := (((buildEventKey_amended.2 0 c8Good "x" sampleStart sampleEnd rfl rfl rfl
      (by decide) rfl rfl).2.2 (PyStr.validIso { naive := 100, tz := some 0 })
      { naive := 100, tz := some 0 } rfl rfl).2.2 (PyStr.validIso { naive := 200, tz := some 0 })
      { naive := 200, tz := some 0 } rfl rfl)
    rw [h]
    rfl

theorem rowKeyIs_mkRow (cal' evt' cal evt tcal tevt : String) (u : Option PyDateTime)
    (now : Int) :
    rowKeyIs cal' evt' (mkRow cal evt tcal tevt u now) = true ↔ (cal = cal' ∧ evt = evt') := by
  simp [rowKeyIs, mkRow]

theorem filter_key_recordSync_self (s : Store) (cal evt tcal tevt : String)
    (u : Option PyDateTime) (now : Int) :
    (recordSync s cal evt tcal tevt u now).filter (rowKeyIs cal evt) =
      [mkRow cal evt tcal tevt u now] := by
  unfold recordSync
  rw [List.filter_append, List.filter_filter]
  have h1 : ∀ r : SyncRow, (rowKeyIs cal evt r && !rowKeyIs cal evt r) = false := by
    intro r
    cases rowKeyIs cal evt r <;> rfl
  simp only [h1, List.filter_false, List.nil_append]
  simp [rowKeyIs, mkRow]

theorem uniqueKeys_recordSync (s : Store) (cal evt tcal tevt : String)
    (u : Option PyDateTime) (now : Int) (h : uniqueKeys s) :
    uniqueKeys (recordSync s cal evt tcal tevt u now) := by
  intro cal' evt'
  by_cases hc : cal' = cal ∧ evt' = evt
  · rw [hc.1, hc.2, filter_key_recordSync_self]
    simp
  · have hrow : rowKeyIs cal' evt' (mkRow cal evt tcal tevt u now) = false := by
      rw [Bool.eq_false_iff]
      intro hq
      rcases (rowKeyIs_mkRow cal' evt' cal evt tcal tevt u now).mp hq with ⟨h1, h2⟩
      exact hc ⟨h1.symm, h2.symm⟩
    unfold recordSync
    rw [List.filter_append]
    have h2 : List.filter (rowKeyIs cal' evt') [mkRow cal evt tcal tevt u now] = [] := by
      simp only [List.filter, hrow]
    rw [h2, List.append_nil]
    calc (List.filter (rowKeyIs cal' evt')
            (s.filter (fun r => !(rowKeyIs cal evt r)))).length
        ≤ (s.filter (rowKeyIs cal' evt')).length :=
          List.Sublist.length_le (List.Sublist.filter _ (List.filter_sublist s))
      _ ≤ 1 := h cal' evt'

theorem uniqueKeys_deleteSyncRecord (s : Store) (cal evt : String) (h : uniqueKeys s) :
    uniqueKeys (deleteSyncRecord s cal evt).2 := by
  intro cal' evt'
  unfold deleteSyncRecord
  cases s.find? (rowKeyIs cal evt) with
  | none => exact h cal' evt'
  | some r =>
    calc (List.filter (rowKeyIs cal' evt')
            (s.filter (fun x => !(rowKeyIs cal evt x)))).length
        ≤ (s.filter (rowKeyIs cal' evt')).length :=
          List.Sublist.length_le (List.Sublist.filter _ (List.filter_sublist s))
      _ ≤ 1 := h cal' evt'

/-- C9: after any sequence of record_sync and delete_sync_record
operations the store keeps at most one row per (source_calendar_id,
source_event_id) key, and record_sync on an existing key replaces the
row rather than inserting a second one. -/
theorem store_mapping_unique :
    (∀ s, uniqueKeys s → ∀ ops, uniqueKeys (applyOps s ops)) ∧
    (∀ ops, uniqueKeys (applyOps [] ops)) ∧
    (∀ s (cal evt tcal tevt : String) (u : Option PyDateTime) (now : Int),
      (∃ r ∈ s, rowKeyIs cal evt r = true) →
      (recordSync s cal evt tcal tevt u now).filter (rowKeyIs cal evt) =
        [mkRow cal evt tcal tevt u now]) := by
  have hstep : ∀ s, uniqueKeys s → ∀ ops, uniqueKeys (applyOps s ops) := by
    intro s hs ops
    induction ops generalizing s with
    | nil => exact hs
    | cons op rest ih =>
      cases op with
      | recOp cal evt tcal tevt u now =>
        exact ih _ (uniqueKeys_recordSync s cal evt tcal tevt u now hs)
      | delOp cal evt =>
        exact ih _ (uniqueKeys_deleteSyncRecord s cal evt hs)
  refine ⟨hstep, ?_, ?_⟩
  · intro ops
    refine hstep [] ?_ ops
    intro cal evt
    simp
  · intro s cal evt tcal tevt u now _
    exact filter_key_recordSync_self s cal evt tcal tevt u now

/-- Witness for C9: a replace on an existing key keeps a single row. -/
theorem store_mapping_unique_witness :
    uniqueKeys (applyOps []
      [.recOp "c" "e" "tc" "te" none 1, .recOp "c" "e" "tc" "te2" none 2]) ∧
    ((∃ r ∈ ([c9Row] : Store), rowKeyIs "c" "e" r = true) ∧
      (recordSync [c9Row] "c" "e" "tc" "te2" none 2).filter (rowKeyIs "c" "e") =
        [mkRow "c" "e" "tc" "te2" none 2]) := by
  refine ⟨store_mapping_unique.2.1 _, ⟨⟨c9Row, by decide, by decide⟩, ?_⟩⟩
  exact store_mapping_unique.2.2 [c9Row] "c" "e" "tc" "te2" none 2
    ⟨c9Row, by decide, by decide⟩

/-! ### C10: get_synced_event always returns an aware timestamp -/

/-- C10: get_synced_event reinterprets a naive stored last_synced as UTC,
so the value it returns is always timezone-aware and comparing any aware
source timestamp against it with `>` is well-defined (never a
TypeError). -/
theorem getSyncedEvent_aware (s : Store) (cal evt tc te : String) (ls : PyDateTime)
    (h : getSyncedEvent s cal evt = some (tc, te, ls)) :
    ls.tz.isSome = true ∧
    ∀ dt : PyDateTime, dt.tz.isSome = true → ∃ b, pyGt dt ls = .ok b := by
  unfold getSyncedEvent at h
  cases hf : s.find? (rowKeyIs cal evt) with
  | none =>
    rw [hf] at h
    exact absurd h (by simp)
  | some r =>
    rw [hf] at h
    injection h with h
    have hls : ls = fixNaiveUtc r.lastSynced := by
      have h2 := congrArg (fun p => p.2.2) h
      simpa using h2.symm
    have haware : ls.tz.isSome = true := by
      rw [hls]
      unfold fixNaiveUtc
      cases hz : r.lastSynced.tz <;> simp [hz]
    refine ⟨haware, ?_⟩
    intro dt hdt
    rcases Option.isSome_iff_exists.mp hdt with ⟨o1, ho1⟩
    rcases Option.isSome_iff_exists.mp haware with ⟨o2, ho2⟩
    refine ⟨decide (ls.naive - o2 < dt.naive - o1), ?_⟩
    unfold pyGt
    rw [ho1, ho2]

/-- C2 counterexample: a tracked event with a present but unparseable
update timestamp is not counted skipped — `fromisoformat` raises
ValueError and the iteration aborts with the skipped counter untouched,
contradicting the claim that such an event is counted skipped. -/
theorem syncEventStep_unparseable_raises :
    syncEventStep plainCfg failGateway 99 "src" c2State c2Event =
      (c2State, some PyError.valueError) := rfl

/-- C2 amended: for a tracked source event whose update field is absent
(or falsy) the outcome is skipped with no remote call and no store write;
if the parsed timestamp is not strictly newer than last_synced the same
holds; if strictly newer, a remote update is pushed — on failure the
outcome degrades to skipped with no store write, on success the mapping
is upserted with a refreshed last_synced and the outcome is updated; a
remote update call is pushed if and only if the timestamp is strictly
newer; and an untracked event with no update timestamp is still created.
(A present-but-unparseable update timestamp instead raises ValueError
and aborts the run — see the counterexample.) -/
theorem syncEventStep_update_policy (cfg : Config) (gw : Gateway) (now : Int)
    (srcCal : String) (s : SyncState) (e : PyEventDict) (eid tc tid : String)
    (ls : PyDateTime) (u : Option PyDateTime)
    (hdry : cfg.dryRun = false) (hid : e.id = some eid)
    (htr : getSyncedEvent s.store srcCal eid = some (tc, tid, ls))
    (hu : getUpdatedTime e = .ok u) :
    (u = none → syncEventStep cfg gw now srcCal s e =
      ({ s with stats := { s.stats with skipped := s.stats.skipped + 1 } }, none)) ∧
    (∀ dt, u = some dt → pyGt dt ls = .ok false →
      syncEventStep cfg gw now srcCal s e =
        ({ s with stats := { s.stats with skipped := s.stats.skipped + 1 } }, none)) ∧
    (∀ dt data, u = some dt → pyGt dt ls = .ok true → buildEventData cfg e = .ok data →
      gw.updateEvent cfg.targetCalendarId tid data = none →
      syncEventStep cfg gw now srcCal s e =
        ({ s with
            stats := { s.stats with skipped := s.stats.skipped + 1 }
            trace := s.trace ++ [Call.updateE cfg.targetCalendarId tid data none] }, none)) ∧
    (∀ dt data tev fs, u = some dt → pyGt dt ls = .ok true →
      buildEventData cfg e = .ok data →
      gw.updateEvent cfg.targetCalendarId tid data = some tev →
      formatEventDatetime e = .ok fs →
      syncEventStep cfg gw now srcCal s e =
        ({ store := recordSync s.store srcCal eid cfg.targetCalendarId tid (some dt) now
           stats := { s.stats with updated := s.stats.updated + 1 }
           trace := s.trace ++ [Call.updateE cfg.targetCalendarId tid data (some tev)] },
          none)) ∧
    ((∃ data0, buildEventData cfg e = .ok data0) →
      (∀ dt, u = some dt → ∃ b, pyGt dt ls = .ok b) →
      ((∃ c, (syncEventStep cfg gw now srcCal s e).1.trace = s.trace ++ [c] ∧
          ∃ d r, c = Call.updateE cfg.targetCalendarId tid d r) ↔
        (∃ dt, u = some dt ∧ pyGt dt ls = .ok true))) ∧
    (∀ (s' : SyncState) (e' : PyEventDict) (eid' : String) (data : PyEventDict)
        (tev : PyEventDict) (tid' : String) (fs : String),
      e'.id = some eid' → getSyncedEvent s'.store srcCal eid' = none →
      getUpdatedTime e' = .ok none → buildEventData cfg e' = .ok data →
      gw.createEvent cfg.targetCalendarId data = some tev → tev.id = some tid' →
      formatEventDatetime e' = .ok fs →
      syncEventStep cfg gw now srcCal s' e' =
        ({ store := recordSync s'.store srcCal eid' cfg.targetCalendarId tid' none now
           stats := { s'.stats with created := s'.stats.created + 1 }
           trace := s'.trace ++ [Call.createE cfg.targetCalendarId data (some tev)] },
          none)) := by
  refine ⟨?_, ?_, ?_, ?_, ?_, ?_⟩
  · intro h
    subst h
    simp [syncEventStep, hid, htr, hu]
  · intro dt h hgt
    subst h
    simp [syncEventStep, hid, htr, hu, hgt]
  · intro dt data h hgt hdata hupd
    subst h
    simp [syncEventStep, hid, htr, hu, hgt, hdry, hdata, hupd]
  · intro dt data tev fs h hgt hdata hupd hf
    subst h
    simp [syncEventStep, hid, htr, hu, hgt, hdry, hdata, hupd, hf]
  · rintro ⟨data0, hdata⟩ hcmp
    constructor
    · rintro ⟨c, hc, d, r, rfl⟩
      cases u with
      | none =>
        rw [show syncEventStep cfg gw now srcCal s e =
            ({ s with stats := { s.stats with skipped := s.stats.skipped + 1 } }, none) from
          by simp [syncEventStep, hid, htr, hu]] at hc
        exact absurd hc (by simp)
      | some dt =>
        rcases hcmp dt rfl with ⟨b, hb⟩
        cases b with
        | true => exact ⟨dt, rfl, hb⟩
        | false =>
          rw [show syncEventStep cfg gw now srcCal s e =
              ({ s with stats := { s.stats with skipped := s.stats.skipped + 1 } }, none) from
            by simp [syncEventStep, hid, htr, hu, hb]] at hc
          exact absurd hc (by simp)
    · rintro ⟨dt, rfl, hgt⟩
      cases hupd : gw.updateEvent cfg.targetCalendarId tid data0 with
      | none =>
        refine ⟨Call.updateE cfg.targetCalendarId tid data0 none, ?_, data0, none, rfl⟩
        simp [syncEventStep, hid, htr, hu, hgt, hdry, hdata, hupd]
      | some tev =>
        refine ⟨Call.updateE cfg.targetCalendarId tid data0 (some tev), ?_, data0, some tev, rfl⟩
        cases hf : formatEventDatetime e with
        | error er => simp [syncEventStep, hid, htr, hu, hgt, hdry, hdata, hupd, hf]
        | ok fs => simp [syncEventStep, hid, htr, hu, hgt, hdry, hdata, hupd, hf]
  · intro s' e' eid' data tev tid' fs hid' huntr hu' hdata hcre htid hf
    simp [syncEventStep, hid', huntr, hu', hdry, hdata, hcre, htid, hf]

/-- Witness for C2 amended: a tracked event with no update timestamp is
skipped with the state otherwise untouched. -/
theorem syncEventStep_update_policy_witness :
    syncEventStep plainCfg failGateway 99 "src" c2State c2SkipEvent =
      ({ c2State with stats := { c2State.stats with skipped := c2State.stats.skipped + 1 } },
        none) :=
  (syncEventStep_update_policy plainCfg failGateway 99 "src" c2State c2SkipEvent
    "e1" "tgt" "t1" { naive := 50, tz := some 0 } none rfl rfl rfl rfl).1 rfl

/-! ### C3: reconciliation never double-claims a target event -/

/-- C3: for an untracked source event whose projected key matches a
target event, if the store already maps that target event id the outcome
is target_already_mapped with no store write; and a mapping is recorded
(or counted reconciled) only when the target lookup is absent. -/
theorem reconcileStep_no_duplicate_target (cfg : Config) (localTz now : Int)
    (srcCal : String) (lookup : List (EventKey × PyEventDict)) (s : RecState)
    (e : PyEventDict) (eid : String) (data : PyEventDict) (k : EventKey)
    (tev : PyEventDict) (tid : String)
    (hid : e.id = some eid) (huntr : getSyncedEvent s.store srcCal eid = none)
    (hdata : buildEventData cfg e = .ok data)
    (hkey : buildEventKeyFromData localTz data = .ok (some k))
    (hfound : dictFind lookup k = some tev) (htid : tev.id = some tid) :
    (∀ m, getByTargetEvent s.store tid = some m →
      reconcileStep cfg localTz now srcCal lookup s e =
        ({ s with stats :=
            { s.stats with targetAlreadyMapped := s.stats.targetAlreadyMapped + 1 } },
          none)) ∧
    ((reconcileStep cfg localTz now srcCal lookup s e).1.store ≠ s.store →
      getByTargetEvent s.store tid = none) ∧
    ((reconcileStep cfg localTz now srcCal lookup s e).1.stats.reconciled ≠
        s.stats.reconciled →
      getByTargetEvent s.store tid = none) := by
  have hmapped : ∀ m, getByTargetEvent s.store tid = some m →
      reconcileStep cfg localTz now srcCal lookup s e =
        ({ s with stats :=
            { s.stats with targetAlreadyMapped := s.stats.targetAlreadyMapped + 1 } },
          none) := by
    intro m hm
    simp [reconcileStep, hid, huntr, hdata, hkey, hfound, htid, hm]
  refine ⟨hmapped, ?_, ?_⟩
  · intro hne
    cases hmv : getByTargetEvent s.store tid with
    | none => rfl
    | some m =>
      rw [hmapped m hmv] at hne
      exact absurd rfl hne
  · intro hne
    cases hmv : getByTargetEvent s.store tid with
    | none => rfl
    | some m =>
      rw [hmapped m hmv] at hne
      exact absurd rfl hne

/-- Witness for C3: a target event already claimed by e1 is not claimed
again for e2; the outcome is target_already_mapped and the store is
untouched. -/
theorem reconcileStep_no_duplicate_target_witness :
    reconcileStep plainCfg 0 99 "src" [(("x", 100, 200), c3Target)] c3State c3Event =
      ({ c3State with stats :=
          { c3State.stats with targetAlreadyMapped := c3State.stats.targetAlreadyMapped + 1 } },
        none) :=
  (reconcileStep_no_duplicate_target plainCfg 0 99 "src" [(("x", 100, 200), c3Target)]
    c3State c3Event "e2" c3Data ("x", 100, 200) c3Target "t1"
    rfl rfl rfl rfl rfl rfl).1 ("src", "e1") rfl

/-- C4 counterexample: with delete propagation on and the tracked event
absent from the listing, the remote delete fails (`failGateway`) yet the
mapping row has already been removed — the final store is empty,
contradicting the claim that the row is still present after a failed
remote delete.  The run completes with no exception and counts no
deletion. -/
theorem syncCalendar_row_removed_despite_remote_failure :
    (syncCalendar c4Cfg failGateway 99 "src" c4Store).1.store = [] ∧
    failGateway.deleteEvent "tgt" "t1" = false ∧
    (syncCalendar c4Cfg failGateway 99 "src" c4Store).2 = none ∧
    (syncCalendar c4Cfg failGateway 99 "src" c4Store).1.stats.deleted = 0 := by
  refine ⟨?_, rfl, ?_, ?_⟩ <;> rfl

/-- C4 amended: for a tracked source-event-id absent from the listing,
the non-dry deletion path first removes the mapping row
(delete_sync_record) and only then attempts the remote delete; the
deleted counter increments exactly when the remote delete succeeds, and
the mapping row is absent from the store afterwards even when the remote
delete fails. -/
theorem deleteStep_removes_before_remote (cfg : Config) (gw : Gateway)
    (srcCal : String) (s : SyncState) (did tid : String) (store1 : Store)
    (hdry : cfg.dryRun = false)
    (hdel : deleteSyncRecord s.store srcCal did = (some tid, store1))
    (hfmt : ∀ tc0 tid0 ls0, getSyncedEvent s.store srcCal did = some (tc0, tid0, ls0) →
      ∀ tev, gw.getEvent cfg.targetCalendarId tid0 = some tev →
      ∃ fs, formatEventDatetime tev = .ok fs) :
    (deleteStep cfg gw srcCal s did).2 = none ∧
    (deleteStep cfg gw srcCal s did).1.store = store1 ∧
    getSyncedEvent store1 srcCal did = none ∧
    (deleteStep cfg gw srcCal s did).1.stats.deleted =
      (if gw.deleteEvent cfg.targetCalendarId tid then s.stats.deleted + 1
       else s.stats.deleted) := by
  have hrow : getSyncedEvent store1 srcCal did = none := by
    unfold deleteSyncRecord at hdel
    cases hf : s.store.find? (rowKeyIs srcCal did) with
    | none =>
      rw [hf] at hdel
      exact absurd (congrArg Prod.fst hdel) (by simp)
    | some r =>
      rw [hf] at hdel
      have hstore1 : store1 = s.store.filter (fun x => !(rowKeyIs srcCal did x)) := by
        have := congrArg Prod.snd hdel
        simpa using this.symm
      unfold getSyncedEvent
      rw [hstore1]
      have : (s.store.filter (fun x => !(rowKeyIs srcCal did x))).find?
          (rowKeyIs srcCal did) = none := by
        rw [List.find?_eq_none]
        intro a ha
        have := (List.mem_filter.mp ha).2
        simp at this
        simp [this]
      rw [this]
  have hmain : ∀ s' : SyncState, s'.store = s.store →
      (deleteFinish cfg gw srcCal did s').2 = none ∧
      (deleteFinish cfg gw srcCal did s').1.store = store1 ∧
      (deleteFinish cfg gw srcCal did s').1.stats.deleted =
        (if gw.deleteEvent cfg.targetCalendarId tid then s'.stats.deleted + 1
         else s'.stats.deleted) := by
    intro s' hs'
    simp only [deleteFinish, hs', hdel]
    cases hres : gw.deleteEvent cfg.targetCalendarId tid with
    | true => simp [hres]
    | false => simp [hres]
  cases hge : getSyncedEvent s.store srcCal did with
  | none =>
    have h := hmain s rfl
    simp only [deleteStep, hdry, hge, Bool.false_eq_true, if_false]
    exact ⟨h.1, h.2.1, hrow, h.2.2⟩
  | some v =>
    obtain ⟨tc0, tid0, ls0⟩ := v
    cases hres : gw.getEvent cfg.targetCalendarId tid0 with
    | none =>
      have h := hmain { s with
        trace := s.trace ++ [Call.getE cfg.targetCalendarId tid0 none] } rfl
      simp only [deleteStep, hdry, hge, hres, Bool.false_eq_true, if_false]
      exact ⟨h.1, h.2.1, hrow, h.2.2⟩
    | some tev =>
      rcases hfmt tc0 tid0 ls0 hge tev hres with ⟨fs, hfs⟩
      have h := hmain { s with
        trace := s.trace ++ [Call.getE cfg.targetCalendarId tid0 (some tev)] } rfl
      simp only [deleteStep, hdry, hge, hres, hfs, Bool.false_eq_true, if_false]
      exact ⟨h.1, h.2.1, hrow, h.2.2⟩

/-- Witness for C4 amended at a failing remote delete: the step succeeds,
the row is gone, and nothing is counted. -/
theorem deleteStep_removes_before_remote_witness :
    (deleteStep c4Cfg failGateway "src" c4State "e1").2 = none ∧
    (deleteStep c4Cfg failGateway "src" c4State "e1").1.store = [] ∧
    getSyncedEvent [] "src" "e1" = none ∧
    (deleteStep c4Cfg failGateway "src" c4State "e1").1.stats.deleted =
      (if failGateway.deleteEvent "tgt" "t1" then c4State.stats.deleted + 1
       else c4State.stats.deleted) :=
  deleteStep_removes_before_remote c4Cfg failGateway "src" c4State "e1" "t1" []
    rfl rfl
    (by
      intro tc0 tid0 ls0 h1 tev h2
      exact absurd h2 (by simp [failGateway]))

/-! ### C5: dry run performs no writes -/

theorem syncEventStep_dry (cfg : Config) (gw : Gateway) (now : Int) (srcCal : String)
    (s : SyncState) (e : PyEventDict) (hdry : cfg.dryRun = true) :
    (syncEventStep cfg gw now srcCal s e).1.store = s.store ∧
    (syncEventStep cfg gw now srcCal s e).1.trace = s.trace := by
  cases he : e.id with
  | none => simp [syncEventStep, he]
  | some eid =>
    cases hge : getSyncedEvent s.store srcCal eid with
    | some v =>
      obtain ⟨tc, tid, ls⟩ := v
      cases hgu : getUpdatedTime e with
      | error er => simp [syncEventStep, he, hge, hgu]
      | ok u =>
        cases u with
        | none => simp [syncEventStep, he, hge, hgu]
        | some dt =>
          cases hgt : pyGt dt ls with
          | error er => simp [syncEventStep, he, hge, hgu, hgt]
          | ok b =>
            cases b with
            | false => simp [syncEventStep, he, hge, hgu, hgt]
            | true =>
              cases hf : formatEventDatetime e with
              | error er => simp [syncEventStep, he, hge, hgu, hgt, hdry, hf]
              | ok fs => simp [syncEventStep, he, hge, hgu, hgt, hdry, hf]
    | none =>
      cases hf : formatEventDatetime e with
      | error er => simp [syncEventStep, he, hge, hdry, hf]
      | ok fs => simp [syncEventStep, he, hge, hdry, hf]

theorem processSourceEvents_dry (cfg : Config) (gw : Gateway) (now : Int)
    (srcCal : String) (hdry : cfg.dryRun = true) :
    ∀ (l : List PyEventDict) (s : SyncState),
      (processSourceEvents cfg gw now srcCal l s).1.store = s.store ∧
      (processSourceEvents cfg gw now srcCal l s).1.trace = s.trace := by
  intro l
  induction l with
  | nil => exact fun s => ⟨rfl, rfl⟩
  | cons e rest ih =>
    intro s
    obtain ⟨h1, h2⟩ := syncEventStep_dry cfg gw now srcCal s e hdry
    cases hstep : syncEventStep cfg gw now srcCal s e with
    | mk s1 err =>
      rw [hstep] at h1 h2
      cases err with
      | none =>
        have h3 := ih s1
        simp only [processSourceEvents, hstep]
        exact ⟨h3.1.trans h1, h3.2.trans h2⟩
      | some er =>
        simp only [processSourceEvents, hstep]
        exact ⟨h1, h2⟩

theorem deleteStep_dry (cfg : Config) (gw : Gateway) (srcCal : String)
    (s : SyncState) (did : String) (hdry : cfg.dryRun = true) :
    (deleteStep cfg gw srcCal s did).1.store = s.store ∧
    ∃ δ, (deleteStep cfg gw srcCal s did).1.trace = s.trace ++ δ ∧
      ∀ c ∈ δ, c.isWrite = false := by
  cases hge : getSyncedEvent s.store srcCal did with
  | none =>
    refine ⟨?_, [], ?_, ?_⟩ <;> simp [deleteStep, hdry, hge]
  | some v =>
    obtain ⟨tc, tid, ls⟩ := v
    cases hres : gw.getEvent cfg.targetCalendarId tid with
    | none =>
      refine ⟨?_, [Call.getE cfg.targetCalendarId tid none], ?_, ?_⟩ <;>
        simp [deleteStep, hdry, hge, hres, Call.isWrite]
    | some tev =>
      cases hf : formatEventDatetime tev with
      | error er =>
        refine ⟨?_, [Call.getE cfg.targetCalendarId tid (some tev)], ?_, ?_⟩ <;>
          simp [deleteStep, hdry, hge, hres, hf, Call.isWrite]
      | ok fs =>
        refine ⟨?_, [Call.getE cfg.targetCalendarId tid (some tev)], ?_, ?_⟩ <;>
          simp [deleteStep, hdry, hge, hres, hf, Call.isWrite]

theorem processDeleted_dry (cfg : Config) (gw : Gateway) (srcCal : String)
    (hdry : cfg.dryRun = true) :
    ∀ (ids : List String) (s : SyncState),
      (processDeleted cfg gw srcCal ids s).1.store = s.store ∧
      ∃ δ, (processDeleted cfg gw srcCal ids s).1.trace = s.trace ++ δ ∧
        ∀ c ∈ δ, c.isWrite = false := by
  intro ids
  induction ids with
  | nil =>
    intro s
    refine ⟨?_, [], ?_, ?_⟩ <;> simp [processDeleted]
  | cons did rest ih =>
    intro s
    obtain ⟨h1, δ1, h2, h3⟩ := deleteStep_dry cfg gw srcCal s did hdry
    cases hstep : deleteStep cfg gw srcCal s did with
    | mk s1 err =>
      rw [hstep] at h1 h2
      cases err with
      | none =>
        obtain ⟨h4, δ2, h5, h6⟩ := ih s1
        simp only [processDeleted, hstep]
        refine ⟨h4.trans h1, δ1 ++ δ2, ?_, ?_⟩
        · rw [h5, h2, List.append_assoc]
        · intro c hc
          rcases List.mem_append.mp hc with hc | hc
          · exact h3 c hc
          · exact h6 c hc
      | some er =>
        simp only [processDeleted, hstep]
        exact ⟨h1, δ1, h2, h3⟩

theorem reconcileStep_dry (cfg : Config) (localTz now : Int) (srcCal : String)
    (lookup : List (EventKey × PyEventDict)) (s : RecState) (e : PyEventDict)
    (hdry : cfg.dryRun = true) :
    (reconcileStep cfg localTz now srcCal lookup s e).1.store = s.store ∧
    (reconcileStep cfg localTz now srcCal lookup s e).1.trace = s.trace := by
  cases he : e.id with
  | none => simp [reconcileStep, he]
  | some eid =>
    cases hge : getSyncedEvent s.store srcCal eid with
    | some v => simp [reconcileStep, he, hge]
    | none =>
      cases hdata : buildEventData cfg e with
      | error er => simp [reconcileStep, he, hge, hdata]
      | ok data =>
        cases hkey : buildEventKeyFromData localTz data with
        | error er => simp [reconcileStep, he, hge, hdata, hkey]
        | ok okey =>
          cases okey with
          | none => simp [reconcileStep, he, hge, hdata, hkey]
          | some k =>
            cases hfound : dictFind lookup k with
            | none => simp [reconcileStep, he, hge, hdata, hkey, hfound]
            | some tev =>
              cases htid : tev.id with
              | none => simp [reconcileStep, he, hge, hdata, hkey, hfound, htid]
              | some tid =>
                cases hm : getByTargetEvent s.store tid with
                | some m => simp [reconcileStep, he, hge, hdata, hkey, hfound, htid, hm]
                | none =>
                  cases hu : getUpdatedTime e with
                  | error er =>
                    simp [reconcileStep, he, hge, hdata, hkey, hfound, htid, hm, hu]
                  | ok u =>
                    cases hf : formatEventDatetime e with
                    | error er =>
                      simp [reconcileStep, he, hge, hdata, hkey, hfound, htid, hm, hu,
                        hdry, hf]
                    | ok fs =>
                      simp [reconcileStep, he, hge, hdata, hkey, hfound, htid, hm, hu,
                        hdry, hf]

theorem processReconcile_dry (cfg : Config) (localTz now : Int) (srcCal : String)
    (lookup : List (EventKey × PyEventDict)) (hdry : cfg.dryRun = true) :
    ∀ (l : List PyEventDict) (s : RecState),
      (processReconcile cfg localTz now srcCal lookup l s).1.store = s.store ∧
      (processReconcile cfg localTz now srcCal lookup l s).1.trace = s.trace := by
  intro l
  induction l with
  | nil => exact fun s => ⟨rfl, rfl⟩
  | cons e rest ih =>
    intro s
    obtain ⟨h1, h2⟩ := reconcileStep_dry cfg localTz now srcCal lookup s e hdry
    cases hstep : reconcileStep cfg localTz now srcCal lookup s e with
    | mk s1 err =>
      rw [hstep] at h1 h2
      cases err with
      | none =>
        have h3 := ih s1
        simp only [processReconcile, hstep]
        exact ⟨h3.1.trans h1, h3.2.trans h2⟩
      | some er =>
        simp only [processReconcile, hstep]
        exact ⟨h1, h2⟩

/-- C5: in dry-run mode sync_calendar and reconcile_calendar leave the
mapping store untouched and perform no remote create, update or delete
call, for every input; and the scenario of one new untracked source
event yields RunStats created = 1 with an unchanged (empty) store and an
empty call trace. -/
theorem dry_run_frame :
    (∀ (cfg : Config) (gw : Gateway) (now : Int) (srcCal : String) (store : Store),
      cfg.dryRun = true →
      (syncCalendar cfg gw now srcCal store).1.store = store ∧
      ∀ c ∈ (syncCalendar cfg gw now srcCal store).1.trace, c.isWrite = false) ∧
    (∀ (cfg : Config) (gw : Gateway) (localTz now : Int) (srcCal : String) (store : Store),
      cfg.dryRun = true →
      (reconcileCalendar cfg gw localTz now srcCal store).1.store = store ∧
      ∀ c ∈ (reconcileCalendar cfg gw localTz now srcCal store).1.trace,
        c.isWrite = false) ∧
    syncCalendar c5Cfg c5Gw 0 "src" [] =
      ({ store := [], stats := { created := 1, updated := 0, skipped := 0, deleted := 0 },
         trace := [] }, none) := by
  refine ⟨?_, ?_, rfl⟩
  · intro cfg gw now srcCal store hdry
    obtain ⟨h1, h2⟩ := processSourceEvents_dry cfg gw now srcCal hdry
      (gw.getEvents srcCal) { store := store, stats := ⟨0, 0, 0, 0⟩, trace := [] }
    cases hmain : processSourceEvents cfg gw now srcCal (gw.getEvents srcCal)
        { store := store, stats := ⟨0, 0, 0, 0⟩, trace := [] } with
    | mk s1 err =>
      rw [hmain] at h1 h2
      cases err with
      | some er =>
        simp only [syncCalendar, hmain]
        exact ⟨h1, by rw [h2]; simp⟩
      | none =>
        cases hdel : cfg.deleteOnSourceDelete with
        | false =>
          simp only [syncCalendar, hmain, hdel, Bool.false_eq_true, if_false]
          exact ⟨h1, by rw [h2]; simp⟩
        | true =>
          simp only [syncCalendar, hmain, hdel, if_true]
          obtain ⟨h4, δ, h5, h6⟩ := processDeleted_dry cfg gw srcCal hdry
            ((dedupKeepFirst ((getAllSyncedEvents store srcCal).map Prod.fst)).filter
              (fun i => !((gw.getEvents srcCal).filterMap (fun e => e.id)).contains i)) s1
          refine ⟨h4.trans h1, ?_⟩
          intro c hc
          rw [h5, h2] at hc
          simp only [List.nil_append] at hc
          exact h6 c hc
  · intro cfg gw localTz now srcCal store hdry
    cases hlk : buildTargetLookup localTz (gw.getEvents cfg.targetCalendarId) [] with
    | error er =>
      refine ⟨?_, ?_⟩ <;> simp [reconcileCalendar, hlk]
    | ok lookup =>
      obtain ⟨h1, h2⟩ := processReconcile_dry cfg localTz now srcCal lookup hdry
        (gw.getEvents srcCal) { store := store, stats := ⟨0, 0, 0, 0⟩, trace := [] }
      simp only [reconcileCalendar, hlk]
      exact ⟨h1, by rw [h2]; simp⟩

/-- Witness for C5: a dry run with delete propagation on leaves a
non-empty store untouched. -/
theorem dry_run_frame_witness :
    (syncCalendar c5DelCfg c5Gw 0 "src" c5DelStore).1.store = c5DelStore :=
  (dry_run_frame.1 c5DelCfg c5Gw 0 "src" c5DelStore rfl).1

/-! ### C1: idempotence of sync_calendar

The second run of `sync_calendar` skips every event because the first
run leaves the store in a state where, for each listed event, either the
mapping's last_synced is at least the event's update instant, or the
event is untracked and its (deterministic) remote create fails again.
`SkipCond` captures exactly the store-dependent condition under which the
per-event step skips. -/

theorem rowKeyIs_eq_true_iff (cal evt : String) (r : SyncRow) :
    rowKeyIs cal evt r = true ↔ (r.srcCal = cal ∧ r.srcEvt = evt) := by
  simp [rowKeyIs]

theorem find?_filter_keep (p q : SyncRow → Bool) (l : List SyncRow)
    (h : ∀ r, p r = true → q r = true) :
    (l.filter q).find? p = l.find? p := by
  induction l with
  | nil => rfl
  | cons r rest ih =>
    cases hq : q r with
    | true =>
      cases hp : p r with
      | true => simp [List.filter_cons, hq, List.find?_cons, hp]
      | false => simp [List.filter_cons, hq, List.find?_cons, hp, ih]
    | false =>
      have hp : p r = false := by
        cases hpv : p r with
        | true =>
          rw [h r hpv] at hq
          exact absurd hq (by simp)
        | false => rfl
      simp [List.filter_cons, hq, List.find?_cons, hp, ih]

theorem find?_filter_self_none (p : SyncRow → Bool) (l : List SyncRow) :
    (l.filter (fun r => !(p r))).find? p = none := by
  rw [List.find?_eq_none]
  intro a ha
  have h2 := (List.mem_filter.mp ha).2
  simp at h2
  simp [h2]

theorem rowKey_keep (cal evt cal' evt' : String) (hne : ¬(cal = cal' ∧ evt = evt')) :
    ∀ r : SyncRow, rowKeyIs cal' evt' r = true → (!(rowKeyIs cal evt r)) = true := by
  intro r hr
  rcases (rowKeyIs_eq_true_iff cal' evt' r).mp hr with ⟨h1, h2⟩
  cases hkv : rowKeyIs cal evt r with
  | true =>
    rcases (rowKeyIs_eq_true_iff cal evt r).mp hkv with ⟨h3, h4⟩
    exact absurd ⟨h3 ▸ h1, h4 ▸ h2⟩ hne
  | false => simp

theorem getSyncedEvent_recordSync_self (s : Store) (cal evt tcal tevt : String)
    (u : Option PyDateTime) (now : Int) :
    getSyncedEvent (recordSync s cal evt tcal tevt u now) cal evt =
      some (tcal, tevt, { naive := now, tz := some 0 }) := by
  unfold getSyncedEvent recordSync
  rw [List.find?_append, find?_filter_self_none]
  have hrow : rowKeyIs cal evt (mkRow cal evt tcal tevt u now) = true :=
    (rowKeyIs_mkRow cal evt cal evt tcal tevt u now).mpr ⟨rfl, rfl⟩
  simp only [mkRow] at hrow
  simp [List.find?_cons, hrow, mkRow, fixNaiveUtc]

theorem getSyncedEvent_recordSync_ne (s : Store) (cal evt tcal tevt cal' evt' : String)
    (u : Option PyDateTime) (now : Int) (hne : ¬(cal = cal' ∧ evt = evt')) :
    getSyncedEvent (recordSync s cal evt tcal tevt u now) cal' evt' =
      getSyncedEvent s cal' evt' := by
  unfold getSyncedEvent recordSync
  rw [List.find?_append, find?_filter_keep _ _ s (rowKey_keep cal evt cal' evt' hne)]
  have hrow : rowKeyIs cal' evt' (mkRow cal evt tcal tevt u now) = false := by
    rw [Bool.eq_false_iff]
    intro hq
    rcases (rowKeyIs_mkRow cal' evt' cal evt tcal tevt u now).mp hq with ⟨h1, h2⟩
    exact hne ⟨h1, h2⟩
  cases hf : s.find? (rowKeyIs cal' evt') with
  | some r => simp
  | none => simp [List.find?_cons, hrow]

theorem getSyncedEvent_filter_ne (s : Store) (cal evt cal' evt' : String)
    (hne : ¬(cal = cal' ∧ evt = evt')) :
    getSyncedEvent (s.filter (fun x => !(rowKeyIs cal evt x))) cal' evt' =
      getSyncedEvent s cal' evt' := by
  unfold getSyncedEvent
  rw [find?_filter_keep _ _ s (rowKey_keep cal evt cal' evt' hne)]

theorem skipCond_transfer (cfg : Config) (gw : Gateway) (srcCal : String)
    (st st' : Store) (e : PyEventDict)
    (heq : ∀ eid, e.id = some eid →
      getSyncedEvent st' srcCal eid = getSyncedEvent st srcCal eid)
    (h : SkipCond cfg gw srcCal st e) : SkipCond cfg gw srcCal st' e := by
  obtain ⟨eid, hid, hrest⟩ := h
  refine ⟨eid, hid, ?_⟩
  rw [heq eid hid]
  exact hrest

theorem syncEventStep_skips (cfg : Config) (gw : Gateway) (now : Int) (srcCal : String)
    (s : SyncState) (e : PyEventDict) (hdry : cfg.dryRun = false)
    (h : SkipCond cfg gw srcCal s.store e) :
    ∃ δ, syncEventStep cfg gw now srcCal s e =
      ({ store := s.store
         stats := { s.stats with skipped := s.stats.skipped + 1 }
         trace := s.trace ++ δ }, none) := by
  obtain ⟨eid, hid, hcase⟩ := h
  rcases hcase with ⟨tc, tid, ls, hge, hdisj⟩ | ⟨hge, data, hdata, hcre⟩
  · rcases hdisj with hu | ⟨dt, hu, hgt⟩ | ⟨dt, data, hu, hgt, hdata, hupd⟩
    · exact ⟨[], by simp [syncEventStep, hid, hge, hu]⟩
    · exact ⟨[], by simp [syncEventStep, hid, hge, hu, hgt]⟩
    · exact ⟨[Call.updateE cfg.targetCalendarId tid data none],
        by simp [syncEventStep, hid, hge, hu, hgt, hdry, hdata, hupd]⟩
  · exact ⟨[Call.createE cfg.targetCalendarId data none],
      by simp [syncEventStep, hid, hge, hdry, hdata, hcre]⟩

theorem processSourceEvents_skips (cfg : Config) (gw : Gateway) (now : Int)
    (srcCal : String) (store : Store) (hdry : cfg.dryRun = false) :
    ∀ (l : List PyEventDict), (∀ e ∈ l, SkipCond cfg gw srcCal store e) →
    ∀ (stats : SyncStats) (tr : List Call),
      ∃ δ, processSourceEvents cfg gw now srcCal l
          { store := store, stats := stats, trace := tr } =
        ({ store := store
           stats := { stats with skipped := stats.skipped + l.length }
           trace := tr ++ δ }, none) := by
  intro l
  induction l with
  | nil =>
    intro _ stats tr
    exact ⟨[], by simp [processSourceEvents]⟩
  | cons e rest ih =>
    intro hall stats tr
    obtain ⟨δ1, hstep⟩ := syncEventStep_skips cfg gw now srcCal
      { store := store, stats := stats, trace := tr } e hdry (hall e (by simp))
    obtain ⟨δ2, hrest⟩ := ih (fun e' he' => hall e' (by simp [he']))
      { stats with skipped := stats.skipped + 1 } (tr ++ δ1)
    refine ⟨δ1 ++ δ2, ?_⟩
    simp only [processSourceEvents, hstep]
    rw [hrest]
    have harith : stats.skipped + 1 + rest.length = stats.skipped + (e :: rest).length := by
      simp
      omega
    simp [harith, List.append_assoc]

theorem pyGt_le_false (dt : PyDateTime) (t1 o : Int) (ho : dt.tz = some o)
    (hle : dt.naive - o ≤ t1) : pyGt dt { naive := t1, tz := some 0 } = .ok false := by
  simp [pyGt, ho]
  omega

theorem skipCond_after_step (cfg : Config) (gw : Gateway) (t1 : Int) (srcCal : String)
    (s : SyncState) (e : PyEventDict) (hdry : cfg.dryRun = false)
    (hupd : updatedWithin t1 e)
    (hok : (syncEventStep cfg gw t1 srcCal s e).2 = none) :
    SkipCond cfg gw srcCal (syncEventStep cfg gw t1 srcCal s e).1.store e := by
  obtain ⟨u, hu, hbound⟩ := hupd
  cases he : e.id with
  | none => simp [syncEventStep, he] at hok
  | some eid =>
    cases hge : getSyncedEvent s.store srcCal eid with
    | some v =>
      obtain ⟨tc, tid, ls⟩ := v
      cases u with
      | none =>
        have hstore : (syncEventStep cfg gw t1 srcCal s e).1.store = s.store := by
          simp [syncEventStep, he, hge, hu]
        rw [hstore]
        exact ⟨eid, he, Or.inl ⟨tc, tid, ls, hge, Or.inl hu⟩⟩
      | some dt =>
        cases hgt : pyGt dt ls with
        | error er => simp [syncEventStep, he, hge, hu, hgt] at hok
        | ok b =>
          cases b with
          | false =>
            have hstore : (syncEventStep cfg gw t1 srcCal s e).1.store = s.store := by
              simp [syncEventStep, he, hge, hu, hgt]
            rw [hstore]
            exact ⟨eid, he, Or.inl ⟨tc, tid, ls, hge, Or.inr (Or.inl ⟨dt, hu, hgt⟩)⟩⟩
          | true =>
            cases hdata : buildEventData cfg e with
            | error er => simp [syncEventStep, he, hge, hu, hgt, hdry, hdata] at hok
            | ok data =>
              cases hres : gw.updateEvent cfg.targetCalendarId tid data with
              | none =>
                have hstore : (syncEventStep cfg gw t1 srcCal s e).1.store = s.store := by
                  simp [syncEventStep, he, hge, hu, hgt, hdry, hdata, hres]
                rw [hstore]
                exact ⟨eid, he, Or.inl ⟨tc, tid, ls, hge,
                  Or.inr (Or.inr ⟨dt, data, hu, hgt, hdata, hres⟩)⟩⟩
              | some tev =>
                cases hf : formatEventDatetime e with
                | error er =>
                  simp [syncEventStep, he, hge, hu, hgt, hdry, hdata, hres, hf] at hok
                | ok fs =>
                  have hstore : (syncEventStep cfg gw t1 srcCal s e).1.store =
                      recordSync s.store srcCal eid cfg.targetCalendarId tid (some dt) t1 := by
                    simp [syncEventStep, he, hge, hu, hgt, hdry, hdata, hres, hf]
                  rw [hstore]
                  obtain ⟨o, ho, hle⟩ := hbound dt rfl
                  exact ⟨eid, he, Or.inl ⟨cfg.targetCalendarId, tid,
                    { naive := t1, tz := some 0 },
                    getSyncedEvent_recordSync_self s.store srcCal eid cfg.targetCalendarId tid
                      (some dt) t1,
                    Or.inr (Or.inl ⟨dt, hu, pyGt_le_false dt t1 o ho hle⟩)⟩⟩
    | none =>
      cases hdata : buildEventData cfg e with
      | error er => simp [syncEventStep, he, hge, hdry, hdata] at hok
      | ok data =>
        cases hcre : gw.createEvent cfg.targetCalendarId data with
        | none =>
          have hstore : (syncEventStep cfg gw t1 srcCal s e).1.store = s.store := by
            simp [syncEventStep, he, hge, hdry, hdata, hcre]
          rw [hstore]
          exact ⟨eid, he, Or.inr ⟨hge, data, hdata, hcre⟩⟩
        | some tev =>
          cases htid : tev.id with
          | none => simp [syncEventStep, he, hge, hdry, hdata, hcre, htid] at hok
          | some tid' =>
            cases hf : formatEventDatetime e with
            | error er =>
              simp [syncEventStep, he, hge, hdry, hdata, hcre, htid, hu, hf] at hok
            | ok fs =>
              have hstore : (syncEventStep cfg gw t1 srcCal s e).1.store =
                  recordSync s.store srcCal eid cfg.targetCalendarId tid' u t1 := by
                simp [syncEventStep, he, hge, hdry, hdata, hcre, htid, hu, hf]
              rw [hstore]
              cases u with
              | none =>
                exact ⟨eid, he, Or.inl ⟨cfg.targetCalendarId, tid',
                  { naive := t1, tz := some 0 },
                  getSyncedEvent_recordSync_self s.store srcCal eid cfg.targetCalendarId tid'
                    none t1,
                  Or.inl hu⟩⟩
              | some dt =>
                obtain ⟨o, ho, hle⟩ := hbound dt rfl
                exact ⟨eid, he, Or.inl ⟨cfg.targetCalendarId, tid',
                  { naive := t1, tz := some 0 },
                  getSyncedEvent_recordSync_self s.store srcCal eid cfg.targetCalendarId tid'
                    (some dt) t1,
                  Or.inr (Or.inl ⟨dt, hu, pyGt_le_false dt t1 o ho hle⟩)⟩⟩

theorem syncEventStep_store_shape (cfg : Config) (gw : Gateway) (now : Int)
    (srcCal : String) (s : SyncState) (e : PyEventDict) :
    (syncEventStep cfg gw now srcCal s e).1.store = s.store ∨
    ∃ eid tid u, e.id = some eid ∧
      (syncEventStep cfg gw now srcCal s e).1.store =
        recordSync s.store srcCal eid cfg.targetCalendarId tid u now := by
  cases he : e.id with
  | none => exact Or.inl (by simp [syncEventStep, he])
  | some eid =>
    cases hge : getSyncedEvent s.store srcCal eid with
    | some v =>
      obtain ⟨tc, tid, ls⟩ := v
      cases hgu : getUpdatedTime e with
      | error er => exact Or.inl (by simp [syncEventStep, he, hge, hgu])
      | ok u =>
        cases u with
        | none => exact Or.inl (by simp [syncEventStep, he, hge, hgu])
        | some dt =>
          cases hgt : pyGt dt ls with
          | error er => exact Or.inl (by simp [syncEventStep, he, hge, hgu, hgt])
          | ok b =>
            cases b with
            | false => exact Or.inl (by simp [syncEventStep, he, hge, hgu, hgt])
            | true =>
              cases hdryv : cfg.dryRun with
              | true =>
                cases hf : formatEventDatetime e with
                | error er =>
                  exact Or.inl (by simp [syncEventStep, he, hge, hgu, hgt, hdryv, hf])
                | ok fs =>
                  exact Or.inl (by simp [syncEventStep, he, hge, hgu, hgt, hdryv, hf])
              | false =>
                cases hdata : buildEventData cfg e with
                | error er =>
                  exact Or.inl (by simp [syncEventStep, he, hge, hgu, hgt, hdryv, hdata])
                | ok data =>
                  cases hres : gw.updateEvent cfg.targetCalendarId tid data with
                  | none =>
                    exact Or.inl
                      (by simp [syncEventStep, he, hge, hgu, hgt, hdryv, hdata, hres])
                  | some tev =>
                    cases hf : formatEventDatetime e with
                    | error er =>
                      exact Or.inr ⟨eid, tid, some dt, rfl,
                        by simp [syncEventStep, he, hge, hgu, hgt, hdryv, hdata, hres, hf]⟩
                    | ok fs =>
                      exact Or.inr ⟨eid, tid, some dt, rfl,
                        by simp [syncEventStep, he, hge, hgu, hgt, hdryv, hdata, hres, hf]⟩
    | none =>
      cases hdryv : cfg.dryRun with
      | true =>
        cases hf : formatEventDatetime e with
        | error er => exact Or.inl (by simp [syncEventStep, he, hge, hdryv, hf])
        | ok fs => exact Or.inl (by simp [syncEventStep, he, hge, hdryv, hf])
      | false =>
        cases hdata : buildEventData cfg e with
        | error er => exact Or.inl (by simp [syncEventStep, he, hge, hdryv, hdata])
        | ok data =>
          cases hcre : gw.createEvent cfg.targetCalendarId data with
          | none => exact Or.inl (by simp [syncEventStep, he, hge, hdryv, hdata, hcre])
          | some tev =>
            cases htid : tev.id with
            | none =>
              exact Or.inl (by simp [syncEventStep, he, hge, hdryv, hdata, hcre, htid])
            | some tid' =>
              cases hgu : getUpdatedTime e with
              | error er =>
                exact Or.inl
                  (by simp [syncEventStep, he, hge, hdryv, hdata, hcre, htid, hgu])
              | ok u =>
                cases hf : formatEventDatetime e with
                | error er =>
                  exact Or.inr ⟨eid, tid', u, rfl,
                    by simp [syncEventStep, he, hge, hdryv, hdata, hcre, htid, hgu, hf]⟩
                | ok fs =>
                  exact Or.inr ⟨eid, tid', u, rfl,
                    by simp [syncEventStep, he, hge, hdryv, hdata, hcre, htid, hgu, hf]⟩

theorem skipCond_preserved_step (cfg : Config) (gw : Gateway) (t1 : Int)
    (srcCal : String) (s : SyncState) (e e' : PyEventDict)
    (hupd : updatedWithin t1 e) (hsc : SkipCond cfg gw srcCal s.store e) :
    SkipCond cfg gw srcCal (syncEventStep cfg gw t1 srcCal s e').1.store e := by
  rcases syncEventStep_store_shape cfg gw t1 srcCal s e' with hsh | ⟨eid', tid', u', hid', hsh⟩
  · rw [hsh]
    exact hsc
  · rw [hsh]
    obtain ⟨eid, hide, hrest⟩ := hsc
    by_cases heid : eid' = eid
    · subst heid
      obtain ⟨u, hu, hbound⟩ := hupd
      refine ⟨eid', hide, Or.inl ⟨cfg.targetCalendarId, tid',
        { naive := t1, tz := some 0 },
        getSyncedEvent_recordSync_self s.store srcCal eid' cfg.targetCalendarId tid' u' t1,
        ?_⟩⟩
      cases u with
      | none => exact Or.inl hu
      | some dt =>
        obtain ⟨o, ho, hle⟩ := hbound dt rfl
        exact Or.inr (Or.inl ⟨dt, hu, pyGt_le_false dt t1 o ho hle⟩)
    · refine ⟨eid, hide, ?_⟩
      rw [getSyncedEvent_recordSync_ne s.store srcCal eid' cfg.targetCalendarId tid'
        srcCal eid u' t1 (fun hq => heid hq.2)]
      exact hrest

theorem run1_settles (cfg : Config) (gw : Gateway) (t1 : Int) (srcCal : String)
    (hdry : cfg.dryRun = false) :
    ∀ (l : List PyEventDict) (s s' : SyncState), (∀ e ∈ l, updatedWithin t1 e) →
    processSourceEvents cfg gw t1 srcCal l s = (s', none) →
    ∀ e, updatedWithin t1 e → (e ∈ l ∨ SkipCond cfg gw srcCal s.store e) →
    SkipCond cfg gw srcCal s'.store e := by
  intro l
  induction l with
  | nil =>
    intro s s' _ hrun e hue hcase
    have hs : s = s' := by
      have := congrArg Prod.fst hrun
      simpa [processSourceEvents] using this
    rcases hcase with h | h
    · exact absurd h (List.not_mem_nil e)
    · exact hs ▸ h
  | cons e0 rest ih =>
    intro s s' hall hrun e hue hcase
    cases hstep : syncEventStep cfg gw t1 srcCal s e0 with
    | mk s1 err =>
      cases err with
      | some er =>
        rw [show processSourceEvents cfg gw t1 srcCal (e0 :: rest) s = (s1, some er) from
          by simp [processSourceEvents, hstep]] at hrun
        exact absurd (congrArg Prod.snd hrun) (by simp)
      | none =>
        have hrun1 : processSourceEvents cfg gw t1 srcCal rest s1 = (s', none) := by
          rw [← hrun]
          simp [processSourceEvents, hstep]
        have hall1 : ∀ e' ∈ rest, updatedWithin t1 e' := fun e' he' =>
          hall e' (by simp [he'])
        rcases hcase with h | h
        · rcases List.mem_cons.mp h with rfl | h'
          · have hsc1 : SkipCond cfg gw srcCal s1.store e := by
              have := skipCond_after_step cfg gw t1 srcCal s e hdry hue
                (by rw [hstep])
              rw [hstep] at this
              exact this
            exact ih s1 s' hall1 hrun1 e hue (Or.inr hsc1)
          · exact ih s1 s' hall1 hrun1 e hue (Or.inl h')
        · have hsc1 : SkipCond cfg gw srcCal s1.store e := by
            have := skipCond_preserved_step cfg gw t1 srcCal s e e0 hue h
            rw [hstep] at this
            exact this
          exact ih s1 s' hall1 hrun1 e hue (Or.inr hsc1)

theorem deleteFinish_store_shape (cfg : Config) (gw : Gateway) (srcCal did : String)
    (s' : SyncState) :
    (deleteFinish cfg gw srcCal did s').1.store = s'.store ∨
    (deleteFinish cfg gw srcCal did s').1.store =
      s'.store.filter (fun x => !(rowKeyIs srcCal did x)) := by
  unfold deleteFinish deleteSyncRecord
  cases hf : s'.store.find? (rowKeyIs srcCal did) with
  | some r =>
    cases hres : gw.deleteEvent cfg.targetCalendarId r.tgtEvt with
    | true => exact Or.inr (by simp [hres])
    | false => exact Or.inr (by simp [hres])
  | none => exact Or.inl (by simp)

theorem deleteStep_store_shape (cfg : Config) (gw : Gateway) (srcCal : String)
    (s : SyncState) (did : String) :
    (deleteStep cfg gw srcCal s did).1.store = s.store ∨
    (deleteStep cfg gw srcCal s did).1.store =
      s.store.filter (fun x => !(rowKeyIs srcCal did x)) := by
  cases hdryv : cfg.dryRun with
  | true =>
    cases hge : getSyncedEvent s.store srcCal did with
    | none => exact Or.inl (by simp [deleteStep, hdryv, hge])
    | some v =>
      obtain ⟨tc, tid, ls⟩ := v
      cases hres : gw.getEvent cfg.targetCalendarId tid with
      | none => exact Or.inl (by simp [deleteStep, hdryv, hge, hres])
      | some tev =>
        cases hf : formatEventDatetime tev with
        | error er => exact Or.inl (by simp [deleteStep, hdryv, hge, hres, hf])
        | ok fs => exact Or.inl (by simp [deleteStep, hdryv, hge, hres, hf])
  | false =>
    cases hge : getSyncedEvent s.store srcCal did with
    | none =>
      have hsh := deleteFinish_store_shape cfg gw srcCal did s
      rcases hsh with hsh | hsh
      · exact Or.inl (by simpa [deleteStep, hdryv, hge] using hsh)
      · exact Or.inr (by simpa [deleteStep, hdryv, hge] using hsh)
    | some v =>
      obtain ⟨tc, tid, ls⟩ := v
      cases hres : gw.getEvent cfg.targetCalendarId tid with
      | none =>
        have hsh := deleteFinish_store_shape cfg gw srcCal did
          { s with trace := s.trace ++ [Call.getE cfg.targetCalendarId tid none] }
        rcases hsh with hsh | hsh
        · exact Or.inl (by simpa [deleteStep, hdryv, hge, hres] using hsh)
        · exact Or.inr (by simpa [deleteStep, hdryv, hge, hres] using hsh)
      | some tev =>
        cases hf : formatEventDatetime tev with
        | error er => exact Or.inl (by simp [deleteStep, hdryv, hge, hres, hf])
        | ok fs =>
          have hsh := deleteFinish_store_shape cfg gw srcCal did
            { s with trace := s.trace ++ [Call.getE cfg.targetCalendarId tid (some tev)] }
          rcases hsh with hsh | hsh
          · exact Or.inl (by simpa [deleteStep, hdryv, hge, hres, hf] using hsh)
          · exact Or.inr (by simpa [deleteStep, hdryv, hge, hres, hf] using hsh)

theorem skipCond_preserved_deleteStep (cfg : Config) (gw : Gateway) (srcCal : String)
    (s : SyncState) (did : String) (e : PyEventDict)
    (hne : ∀ eid, e.id = some eid → did ≠ eid)
    (hsc : SkipCond cfg gw srcCal s.store e) :
    SkipCond cfg gw srcCal (deleteStep cfg gw srcCal s did).1.store e := by
  rcases deleteStep_store_shape cfg gw srcCal s did with hsh | hsh <;> rw [hsh]
  · exact hsc
  · refine skipCond_transfer cfg gw srcCal s.store _ e ?_ hsc
    intro eid hid
    exact getSyncedEvent_filter_ne s.store srcCal did srcCal eid
      (fun hq => hne eid hid hq.2)

theorem skipCond_preserved_processDeleted (cfg : Config) (gw : Gateway)
    (srcCal : String) :
    ∀ (ids : List String) (s : SyncState) (e : PyEventDict),
    (∀ eid, e.id = some eid → ∀ did ∈ ids, did ≠ eid) →
    SkipCond cfg gw srcCal s.store e →
    SkipCond cfg gw srcCal (processDeleted cfg gw srcCal ids s).1.store e := by
  intro ids
  induction ids with
  | nil =>
    intro s e _ hsc
    exact hsc
  | cons did rest ih =>
    intro s e hne hsc
    cases hstep : deleteStep cfg gw srcCal s did with
    | mk s1 err =>
      have hsc1 : SkipCond cfg gw srcCal s1.store e := by
        have := skipCond_preserved_deleteStep cfg gw srcCal s did e
          (fun eid hid => hne eid hid did (by simp)) hsc
        rw [hstep] at this
        exact this
      cases err with
      | none =>
        simp only [processDeleted, hstep]
        exact ih s1 e (fun eid hid did' hd => hne eid hid did' (by simp [hd])) hsc1
      | some er =>
        simp only [processDeleted, hstep]
        exact hsc1

theorem syncEventStep_store_mem (cfg : Config) (gw : Gateway) (now : Int)
    (srcCal : String) (s : SyncState) (e : PyEventDict) (r : SyncRow)
    (hr : r ∈ (syncEventStep cfg gw now srcCal s e).1.store) :
    r ∈ s.store ∨ (r.srcCal = srcCal ∧ ∃ eid, e.id = some eid ∧ r.srcEvt = eid) := by
  rcases syncEventStep_store_shape cfg gw now srcCal s e with hsh | ⟨eid, tid, u, hid, hsh⟩
  · rw [hsh] at hr
    exact Or.inl hr
  · rw [hsh] at hr
    unfold recordSync at hr
    rcases List.mem_append.mp hr with hr | hr
    · exact Or.inl (List.mem_filter.mp hr).1
    · have hr2 : r = mkRow srcCal eid cfg.targetCalendarId tid u now := by
        simpa using hr
      subst hr2
      exact Or.inr ⟨rfl, eid, hid, rfl⟩

theorem processSourceEvents_store_mem (cfg : Config) (gw : Gateway) (now : Int)
    (srcCal : String) :
    ∀ (l : List PyEventDict) (s : SyncState) (r : SyncRow),
    r ∈ (processSourceEvents cfg gw now srcCal l s).1.store →
    r ∈ s.store ∨ (r.srcCal = srcCal ∧ ∃ e ∈ l, ∃ eid, e.id = some eid ∧ r.srcEvt = eid) := by
  intro l
  induction l with
  | nil =>
    intro s r hr
    exact Or.inl hr
  | cons e rest ih =>
    intro s r hr
    cases hstep : syncEventStep cfg gw now srcCal s e with
    | mk s1 err =>
      cases err with
      | none =>
        rw [show processSourceEvents cfg gw now srcCal (e :: rest) s =
            processSourceEvents cfg gw now srcCal rest s1 from
          by simp [processSourceEvents, hstep]] at hr
        rcases ih s1 r hr with h | ⟨h1, e', he', hrest⟩
        · rcases syncEventStep_store_mem cfg gw now srcCal s e r
            (by rw [hstep]; exact h) with h2 | ⟨h2, eid, hid, hev⟩
          · exact Or.inl h2
          · exact Or.inr ⟨h2, e, by simp, eid, hid, hev⟩
        · exact Or.inr ⟨h1, e', by simp [he'], hrest⟩
      | some er =>
        rw [show processSourceEvents cfg gw now srcCal (e :: rest) s = (s1, some er) from
          by simp [processSourceEvents, hstep]] at hr
        rcases syncEventStep_store_mem cfg gw now srcCal s e r
          (by rw [hstep]; exact hr) with h2 | ⟨h2, eid, hid, hev⟩
        · exact Or.inl h2
        · exact Or.inr ⟨h2, e, by simp, eid, hid, hev⟩

theorem deleteStep_store_sub (cfg : Config) (gw : Gateway) (srcCal : String)
    (s : SyncState) (did : String) (r : SyncRow)
    (hr : r ∈ (deleteStep cfg gw srcCal s did).1.store) : r ∈ s.store := by
  rcases deleteStep_store_shape cfg gw srcCal s did with hsh | hsh <;> rw [hsh] at hr
  · exact hr
  · exact (List.mem_filter.mp hr).1

theorem processDeleted_store_sub (cfg : Config) (gw : Gateway) (srcCal : String) :
    ∀ (ids : List String) (s : SyncState) (r : SyncRow),
    r ∈ (processDeleted cfg gw srcCal ids s).1.store → r ∈ s.store := by
  intro ids
  induction ids with
  | nil =>
    intro s r hr
    exact hr
  | cons did rest ih =>
    intro s r hr
    cases hstep : deleteStep cfg gw srcCal s did with
    | mk s1 err =>
      cases err with
      | none =>
        rw [show processDeleted cfg gw srcCal (did :: rest) s =
            processDeleted cfg gw srcCal rest s1 from
          by simp [processDeleted, hstep]] at hr
        exact deleteStep_store_sub cfg gw srcCal s did r (by rw [hstep]; exact ih s1 r hr)
      | some er =>
        rw [show processDeleted cfg gw srcCal (did :: rest) s = (s1, some er) from
          by simp [processDeleted, hstep]] at hr
        exact deleteStep_store_sub cfg gw srcCal s did r (by rw [hstep]; exact hr)

theorem deleteFinish_kills (cfg : Config) (gw : Gateway) (srcCal did : String)
    (s' : SyncState) (r : SyncRow)
    (hr : r ∈ (deleteFinish cfg gw srcCal did s').1.store) :
    ¬(r.srcCal = srcCal ∧ r.srcEvt = did) := by
  unfold deleteFinish deleteSyncRecord at hr
  cases hf : s'.store.find? (rowKeyIs srcCal did) with
  | some r0 =>
    rw [hf] at hr
    have hr2 : r ∈ s'.store.filter (fun x => !(rowKeyIs srcCal did x)) := by
      cases hres : gw.deleteEvent cfg.targetCalendarId r0.tgtEvt with
      | true => simpa [hres] using hr
      | false => simpa [hres] using hr
    have h2 := (List.mem_filter.mp hr2).2
    simp only [Bool.not_eq_eq_eq_not, Bool.not_true] at h2
    intro hk
    rw [(rowKeyIs_eq_true_iff srcCal did r).mpr hk] at h2
    exact absurd h2 (by simp)
  | none =>
    rw [hf] at hr
    have hr2 : r ∈ s'.store := by simpa using hr
    intro hk
    have := List.find?_eq_none.mp hf r hr2
    exact this ((rowKeyIs_eq_true_iff srcCal did r).mpr hk)

theorem deleteStep_kills (cfg : Config) (gw : Gateway) (srcCal : String)
    (s : SyncState) (did : String) (hdry : cfg.dryRun = false)
    (hok : (deleteStep cfg gw srcCal s did).2 = none) (r : SyncRow)
    (hr : r ∈ (deleteStep cfg gw srcCal s did).1.store) :
    ¬(r.srcCal = srcCal ∧ r.srcEvt = did) := by
  cases hge : getSyncedEvent s.store srcCal did with
  | none =>
    have heq : deleteStep cfg gw srcCal s did = deleteFinish cfg gw srcCal did s := by
      simp [deleteStep, hdry, hge]
    rw [heq] at hr
    exact deleteFinish_kills cfg gw srcCal did s r hr
  | some v =>
    obtain ⟨tc, tid, ls⟩ := v
    cases hres : gw.getEvent cfg.targetCalendarId tid with
    | none =>
      have heq : deleteStep cfg gw srcCal s did = deleteFinish cfg gw srcCal did
          { s with trace := s.trace ++ [Call.getE cfg.targetCalendarId tid none] } := by
        simp [deleteStep, hdry, hge, hres]
      rw [heq] at hr
      exact deleteFinish_kills cfg gw srcCal did _ r hr
    | some tev =>
      cases hfmt : formatEventDatetime tev with
      | error er => simp [deleteStep, hdry, hge, hres, hfmt] at hok
      | ok fs =>
        have heq : deleteStep cfg gw srcCal s did = deleteFinish cfg gw srcCal did
            { s with trace := s.trace ++ [Call.getE cfg.targetCalendarId tid (some tev)] } := by
          simp [deleteStep, hdry, hge, hres, hfmt]
        rw [heq] at hr
        exact deleteFinish_kills cfg gw srcCal did _ r hr

theorem processDeleted_kills (cfg : Config) (gw : Gateway) (srcCal : String)
    (hdry : cfg.dryRun = false) :
    ∀ (ids : List String) (s : SyncState) (did : String), did ∈ ids →
    (processDeleted cfg gw srcCal ids s).2 = none →
    ∀ r ∈ (processDeleted cfg gw srcCal ids s).1.store,
    ¬(r.srcCal = srcCal ∧ r.srcEvt = did) := by
  intro ids
  induction ids with
  | nil =>
    intro s did hmem
    exact absurd hmem (List.not_mem_nil did)
  | cons did0 rest ih =>
    intro s did hmem hok r hr
    cases hstep : deleteStep cfg gw srcCal s did0 with
    | mk s1 err =>
      cases err with
      | some er =>
        rw [show processDeleted cfg gw srcCal (did0 :: rest) s = (s1, some er) from
          by simp [processDeleted, hstep]] at hok
        exact absurd hok (by simp)
      | none =>
        rw [show processDeleted cfg gw srcCal (did0 :: rest) s =
            processDeleted cfg gw srcCal rest s1 from
          by simp [processDeleted, hstep]] at hok hr
        rcases List.mem_cons.mp hmem with rfl | hmem'
        · have hr1 : r ∈ s1.store := processDeleted_store_sub cfg gw srcCal rest s1 r hr
          exact deleteStep_kills cfg gw srcCal s did hdry (by rw [hstep]) r
            (by rw [hstep]; exact hr1)
        · exact ih s1 did hmem' hok r hr

theorem mem_dedupKeepFirst (a : String) : ∀ l : List String,
    a ∈ dedupKeepFirst l ↔ a ∈ l := by
  intro l
  induction l with
  | nil => simp [dedupKeepFirst]
  | cons x xs ih =>
    simp only [dedupKeepFirst, List.mem_cons, List.mem_filter]
    constructor
    · rintro (rfl | ⟨h1, _⟩)
      · exact Or.inl rfl
      · exact Or.inr (ih.mp h1)
    · rintro (rfl | h)
      · exact Or.inl rfl
      · by_cases hax : a = x
        · exact Or.inl hax
        · refine Or.inr ⟨ih.mpr h, ?_⟩
          simp [hax]

theorem mem_syncedIds (s : Store) (cal i : String) :
    i ∈ (getAllSyncedEvents s cal).map Prod.fst ↔
      ∃ r ∈ s, r.srcCal = cal ∧ r.srcEvt = i := by
  unfold getAllSyncedEvents
  rw [List.map_map]
  constructor
  · intro h
    rcases List.mem_map.mp h with ⟨r, hr, hev⟩
    have hm := List.mem_filter.mp hr
    refine ⟨r, hm.1, by simpa using hm.2, by simpa using hev⟩
  · rintro ⟨r, hr, hcal, hev⟩
    exact List.mem_map.mpr ⟨r, List.mem_filter.mpr ⟨hr, by simp [hcal]⟩, by simp [hev]⟩

theorem contains_iff_mem (l : List String) (a : String) : l.contains a = true ↔ a ∈ l :=
  List.elem_iff

theorem syncCalendar_of_main (cfg : Config) (gw : Gateway) (now : Int)
    (srcCal : String) (store : Store) (sFin : SyncState)
    (hmain : processSourceEvents cfg gw now srcCal (gw.getEvents srcCal)
      { store := store, stats := ⟨0, 0, 0, 0⟩, trace := [] } = (sFin, none))
    (hdel : cfg.deleteOnSourceDelete = true →
      (dedupKeepFirst ((getAllSyncedEvents store srcCal).map Prod.fst)).filter
        (fun i => !(((gw.getEvents srcCal).filterMap (fun e => e.id)).contains i)) = []) :
    syncCalendar cfg gw now srcCal store = (sFin, none) := by
  cases hdelv : cfg.deleteOnSourceDelete with
  | false => simp [syncCalendar, hmain, hdelv]
  | true =>
    simp only [syncCalendar, hmain, hdelv, eq_self_iff_true, if_true]
    rw [hdel hdelv]
    rfl

/-- C1 counterexample: the claim as frozen is false.  With no change to
the source events (the same deterministic gateway serves both runs), an
empty initial store, no external change to store or target, and a first
run that completes, the second run still reports updated = 1: the
event's update timestamp (instant 1000) postdates the last_synced the
first run recorded (its clock, 99), so the tracked comparison at
sync_engine.py line 73 fires again and pushes a remote update. -/
theorem sync_calendar_second_run_updates :
    (syncCalendar plainCfg c1Gw 99 "src" []).2 = none ∧
    (syncCalendar plainCfg c1Gw 100 "src"
      (syncCalendar plainCfg c1Gw 99 "src" []).1.store).2 = none ∧
    (syncCalendar plainCfg c1Gw 100 "src"
      (syncCalendar plainCfg c1Gw 99 "src" []).1.store).1.stats.updated = 1 := by
  refine ⟨?_, ?_, ?_⟩ <;> rfl

/-- C1 amended: running sync_calendar twice in succession with no change
to the source events (same deterministic gateway and listing) and no
external change to store or target yields a second run that completes
with created = 0, updated = 0 and deleted = 0, every event's outcome
being skipped — provided the first run completed without an exception
and each listed event's update timestamp parses to an aware instant no
later than the first run's clock (an event whose update timestamp
postdates that clock is updated again on the second run, as the
counterexample shows). -/
theorem sync_calendar_idempotent (cfg : Config) (gw : Gateway) (t1 t2 : Int)
    (srcCal : String) (store : Store)
    (hdry : cfg.dryRun = false)
    (hupd : ∀ e ∈ gw.getEvents srcCal, updatedWithin t1 e)
    (h1 : (syncCalendar cfg gw t1 srcCal store).2 = none) :
    (syncCalendar cfg gw t2 srcCal (syncCalendar cfg gw t1 srcCal store).1.store).2 =
      none ∧
    (syncCalendar cfg gw t2 srcCal
      (syncCalendar cfg gw t1 srcCal store).1.store).1.stats.created = 0 ∧
    (syncCalendar cfg gw t2 srcCal
      (syncCalendar cfg gw t1 srcCal store).1.store).1.stats.updated = 0 ∧
    (syncCalendar cfg gw t2 srcCal
      (syncCalendar cfg gw t1 srcCal store).1.store).1.stats.deleted = 0 ∧
    (syncCalendar cfg gw t2 srcCal
      (syncCalendar cfg gw t1 srcCal store).1.store).1.stats.skipped =
      (gw.getEvents srcCal).length := by
  cases hmain1 : processSourceEvents cfg gw t1 srcCal (gw.getEvents srcCal)
      { store := store, stats := ⟨0, 0, 0, 0⟩, trace := [] } with
  | mk sMid err1 =>
  cases err1 with
  | some er =>
    rw [show syncCalendar cfg gw t1 srcCal store = (sMid, some er) from by
      simp [syncCalendar, hmain1]] at h1
    exact absurd h1 (by simp)
  | none =>
    have hsettle_mid : ∀ e ∈ gw.getEvents srcCal,
        SkipCond cfg gw srcCal sMid.store e := by
      intro e he
      exact run1_settles cfg gw t1 srcCal hdry (gw.getEvents srcCal) _ sMid hupd hmain1 e
        (hupd e he) (Or.inl he)
    cases hdelv : cfg.deleteOnSourceDelete with
    | false =>
      have hrun1 : syncCalendar cfg gw t1 srcCal store = (sMid, none) := by
        simp [syncCalendar, hmain1, hdelv]
      obtain ⟨δ, hrun2⟩ := processSourceEvents_skips cfg gw t2 srcCal sMid.store hdry
        (gw.getEvents srcCal) hsettle_mid ⟨0, 0, 0, 0⟩ []
      have hfinal2 := syncCalendar_of_main cfg gw t2 srcCal sMid.store _ hrun2
        (fun h => absurd h (by simp [hdelv]))
      refine ⟨?_, ?_, ?_, ?_, ?_⟩ <;>
        · rw [show (syncCalendar cfg gw t1 srcCal store).1.store = sMid.store from
            by rw [hrun1]]
          simp [hfinal2]
    | true =>
      have hrun1 : syncCalendar cfg gw t1 srcCal store =
          processDeleted cfg gw srcCal
            ((dedupKeepFirst ((getAllSyncedEvents store srcCal).map Prod.fst)).filter
              (fun i => !(((gw.getEvents srcCal).filterMap (fun e => e.id)).contains i)))
            sMid := by
        simp [syncCalendar, hmain1, hdelv]
      cases hdel1 : processDeleted cfg gw srcCal
          ((dedupKeepFirst ((getAllSyncedEvents store srcCal).map Prod.fst)).filter
            (fun i => !(((gw.getEvents srcCal).filterMap (fun e => e.id)).contains i)))
          sMid with
      | mk s1 errD =>
      have herrD : errD = none := by
        rw [hrun1, hdel1] at h1
        simpa using h1
      subst herrD
      have hrun1' : syncCalendar cfg gw t1 srcCal store = (s1, none) := by
        rw [hrun1, hdel1]
      have hskip2 : ∀ e ∈ gw.getEvents srcCal, SkipCond cfg gw srcCal s1.store e := by
        intro e he
        have hne : ∀ eid, e.id = some eid →
            ∀ did ∈ (dedupKeepFirst ((getAllSyncedEvents store srcCal).map Prod.fst)).filter
              (fun i => !(((gw.getEvents srcCal).filterMap (fun e => e.id)).contains i)),
            did ≠ eid := by
          intro eid hid did hdid heq
          subst heq
          have hdmem := List.mem_filter.mp hdid
          have hcur : ((gw.getEvents srcCal).filterMap (fun e => e.id)).contains did = true :=
            (contains_iff_mem _ did).mpr (List.mem_filterMap.mpr ⟨e, he, hid⟩)
          rw [hcur] at hdmem
          exact absurd hdmem.2 (by simp)
        have hpres := skipCond_preserved_processDeleted cfg gw srcCal
          ((dedupKeepFirst ((getAllSyncedEvents store srcCal).map Prod.fst)).filter
            (fun i => !(((gw.getEvents srcCal).filterMap (fun e => e.id)).contains i)))
          sMid e hne (hsettle_mid e he)
        rw [hdel1] at hpres
        exact hpres
      have hP2 : ∀ r ∈ s1.store, r.srcCal = srcCal →
          r.srcEvt ∈ (gw.getEvents srcCal).filterMap (fun e => e.id) := by
        intro r hr hcal
        by_contra hnc
        have hrmid : r ∈ sMid.store := by
          have hsub := processDeleted_store_sub cfg gw srcCal
            ((dedupKeepFirst ((getAllSyncedEvents store srcCal).map Prod.fst)).filter
              (fun i => !(((gw.getEvents srcCal).filterMap (fun e => e.id)).contains i)))
            sMid r (by rw [hdel1]; exact hr)
          exact hsub
        rcases processSourceEvents_store_mem cfg gw t1 srcCal (gw.getEvents srcCal)
            { store := store, stats := ⟨0, 0, 0, 0⟩, trace := [] } r
            (by rw [hmain1]; exact hrmid) with h | ⟨_, e', he', eid, hid, hev⟩
        · have hsid : r.srcEvt ∈
              dedupKeepFirst ((getAllSyncedEvents store srcCal).map Prod.fst) :=
            (mem_dedupKeepFirst _ _).mpr
              ((mem_syncedIds store srcCal r.srcEvt).mpr ⟨r, h, hcal, rfl⟩)
          have hcont : ((gw.getEvents srcCal).filterMap (fun e => e.id)).contains r.srcEvt
              = false := by
            cases hcv : ((gw.getEvents srcCal).filterMap (fun e => e.id)).contains r.srcEvt with
            | false => rfl
            | true => exact absurd ((contains_iff_mem _ _).mp hcv) hnc
          have hdid : r.srcEvt ∈
              (dedupKeepFirst ((getAllSyncedEvents store srcCal).map Prod.fst)).filter
                (fun i => !(((gw.getEvents srcCal).filterMap (fun e => e.id)).contains i)) :=
            List.mem_filter.mpr ⟨hsid, by rw [hcont]; rfl⟩
          have hkill := processDeleted_kills cfg gw srcCal hdry
            ((dedupKeepFirst ((getAllSyncedEvents store srcCal).map Prod.fst)).filter
              (fun i => !(((gw.getEvents srcCal).filterMap (fun e => e.id)).contains i)))
            sMid r.srcEvt hdid (by rw [hdel1]) r (by rw [hdel1]; exact hr)
          exact hkill ⟨hcal, rfl⟩
        · exact hnc (hev ▸ List.mem_filterMap.mpr ⟨e', he', hid⟩)
      have hd2 : (dedupKeepFirst ((getAllSyncedEvents s1.store srcCal).map Prod.fst)).filter
          (fun i => !(((gw.getEvents srcCal).filterMap (fun e => e.id)).contains i)) = [] := by
        rw [List.filter_eq_nil_iff]
        intro i hi
        have hmem := (mem_dedupKeepFirst i _).mp hi
        rcases (mem_syncedIds s1.store srcCal i).mp hmem with ⟨r, hr, hcal, hev⟩
        have hin := hP2 r hr hcal
        rw [hev] at hin
        have hcont : ((gw.getEvents srcCal).filterMap (fun e => e.id)).contains i = true :=
          (contains_iff_mem _ i).mpr hin
        rw [hcont]
        simp
      obtain ⟨δ, hrun2⟩ := processSourceEvents_skips cfg gw t2 srcCal s1.store hdry
        (gw.getEvents srcCal) hskip2 ⟨0, 0, 0, 0⟩ []
      have hfinal2 := syncCalendar_of_main cfg gw t2 srcCal s1.store _ hrun2 (fun _ => hd2)
      refine ⟨?_, ?_, ?_, ?_, ?_⟩ <;>
        · rw [show (syncCalendar cfg gw t1 srcCal store).1.store = s1.store from
            by rw [hrun1']]
          simp [hfinal2]

/-- Witness for C1: a listing with one event whose remote create fails
deterministically — both runs skip it, and the second run has zero
created, updated and deleted. -/
theorem sync_calendar_idempotent_witness :
    plainCfg.dryRun = false ∧
    (syncCalendar plainCfg c5Gw 1 "src" []).2 = none ∧
    ((syncCalendar plainCfg c5Gw 2 "src"
        (syncCalendar plainCfg c5Gw 1 "src" []).1.store).2 = none ∧
      (syncCalendar plainCfg c5Gw 2 "src"
        (syncCalendar plainCfg c5Gw 1 "src" []).1.store).1.stats.created = 0 ∧
      (syncCalendar plainCfg c5Gw 2 "src"
        (syncCalendar plainCfg c5Gw 1 "src" []).1.store).1.stats.updated = 0 ∧
      (syncCalendar plainCfg c5Gw 2 "src"
        (syncCalendar plainCfg c5Gw 1 "src" []).1.store).1.stats.deleted = 0 ∧
      (syncCalendar plainCfg c5Gw 2 "src"
        (syncCalendar plainCfg c5Gw 1 "src" []).1.store).1.stats.skipped =
        (c5Gw.getEvents "src").length) := by
  refine ⟨rfl, rfl, ?_⟩
  refine sync_calendar_idempotent plainCfg c5Gw 1 2 "src" [] rfl ?_ rfl
  intro e he
  have he' : e = c5Event := by simpa [c5Gw, failGateway] using he
  subst he'
  exact ⟨none, rfl, fun dt h => by cases h⟩

/-- Witness for C10: a naive stored timestamp comes back aware and
comparable. -/
theorem getSyncedEvent_aware_witness :
    getSyncedEvent c10Store "c" "e" = some ("tc", "te", { naive := 5, tz := some 0 }) ∧
    ({ naive := 5, tz := some 0 } : PyDateTime).tz.isSome = true := by
  refine ⟨by decide, ?_⟩
  exact (getSyncedEvent_aware c10Store "c" "e" "tc" "te"
    { naive := 5, tz := some 0 } (by decide)).1

end Calsync
